import Mathlib

/-
Verification development for the geotolk text-format decoding engine
(`geotolktools/parser.py` plus its loader).  The Python source is shallowly
embedded: Python dicts become association lists, exceptions become an
explicit `Except` error type, and the declarative mapping tables imported
from the (absent) `mappings` module are parameters of the embedded parsers.
-/

namespace Geotolk

/-- A decoded Python value: the missing-value sentinel `np.nan`, integers,
floats (modelled exactly as rationals), strings, and parsed dates. -/
inductive PyVal where
  | nan
  | int (n : Int)
  | float (q : Rat)
  | str (s : String)
  | date (y m d : Nat)
deriving DecidableEq

/-- The Python exceptions the source raises or catches. -/
inductive PyErr where
  | indexError
  | valueError (msg : String)
  | typeError
  | keyError (k : String)
  | nameError
deriving DecidableEq

deriving instance DecidableEq for Except

/-- `str(e)` as used when errors are appended to an error list. -/
def pyErrMsg : PyErr → String
  | .indexError => "list index out of range"
  | .valueError m => m
  | .typeError => "sequence item expected str instance"
  | .keyError k => k
  | .nameError => "name is not defined"

/-- A Python dict with string keys, in insertion order. -/
abbrev PyRec := List (String × PyVal)

/-- `d[k] = v` on a dict: overwrite in place if present, else append. -/
def recSet (r : PyRec) (k : String) (v : PyVal) : PyRec :=
  if r.any (fun p => p.1 = k) then r.map (fun p => if p.1 = k then (k, v) else p)
  else r ++ [(k, v)]

/-- `d.get(k)`: the value stored at key `k`, if any. -/
def recGet? (r : PyRec) (k : String) : Option PyVal :=
  (r.find? (fun p => p.1 = k)).map (fun p => p.2)

/-- `{**a, **b}`: keys of `a` first, values of `b` winning. -/
def recMerge (a b : PyRec) : PyRec :=
  b.foldl (fun acc p => recSet acc p.1 p.2) a

/-- Python whitespace characters relevant to `str.split()`. -/
def pySpace (c : Char) : Bool :=
  c == ' ' || c == '\t' || c == '\n' || c == '\r' || c == '\x0b' || c == '\x0c'

/-- Worker for `str.split()`: splits on runs of whitespace, dropping empties.
`acc` carries the current in-progress token, reversed. -/
def splitWsAux : List Char → List Char → List (List Char)
  | [], acc => if acc.isEmpty then [] else [acc.reverse]
  | c :: cs, acc =>
    if pySpace c then
      if acc.isEmpty then splitWsAux cs [] else acc.reverse :: splitWsAux cs []
    else splitWsAux cs (c :: acc)

/-- Python `line.split()` (no separator argument). -/
def splitWs (s : String) : List String :=
  (splitWsAux s.toList []).map (fun l => String.mk l)

/-- Strip leading and trailing whitespace from a character list. -/
def stripChars (cs : List Char) : List Char :=
  ((cs.dropWhile pySpace).reverse.dropWhile pySpace).reverse

/-- Python `s.strip()`. -/
def pyStrip (s : String) : String := String.mk (stripChars s.toList)

/-- Python `s.isdigit()` (restricted to ASCII digits). -/
def pyIsDigitStr (s : String) : Bool :=
  !s.toList.isEmpty && s.toList.all Char.isDigit

/-- Decimal value of a list of digit characters. -/
def digitsVal (cs : List Char) : Nat :=
  cs.foldl (fun a c => a * 10 + (c.toNat - 48)) 0

/-- Python `int(s)`: optional surrounding whitespace, optional sign, digits. -/
def pyIntParse (s : String) : Option Int :=
  match stripChars s.toList with
  | '-' :: cs => if !cs.isEmpty && cs.all Char.isDigit then some (-(digitsVal cs : Int)) else none
  | '+' :: cs => if !cs.isEmpty && cs.all Char.isDigit then some (digitsVal cs : Int) else none
  | cs => if !cs.isEmpty && cs.all Char.isDigit then some (digitsVal cs : Int) else none

/-- Python `float(s)` on plain decimal literals: optional sign, digits with an
optional decimal point (at least one digit overall), valued as a rational. -/
def floatDigits : List Char → Option (Nat × Nat × Nat)
  | cs =>
    let intPart := cs.takeWhile Char.isDigit
    let rest := cs.dropWhile Char.isDigit
    match rest with
    | [] => if intPart.isEmpty then none else some (digitsVal intPart, 0, 0)
    | '.' :: fracPart =>
      if fracPart.all Char.isDigit && !(intPart.isEmpty && fracPart.isEmpty) then
        some (digitsVal intPart, digitsVal fracPart, fracPart.length)
      else none
    | _ => none

/-- Python `float(s)` (restricted to the plain decimal forms the data uses). -/
def pyFloatParse (s : String) : Option Rat :=
  match stripChars s.toList with
  | '-' :: cs => (floatDigits cs).map (fun t => -(((t.1 : Rat) + (t.2.1 : Rat) / ((10 : Rat) ^ t.2.2))))
  | '+' :: cs => (floatDigits cs).map (fun t => ((t.1 : Rat) + (t.2.1 : Rat) / ((10 : Rat) ^ t.2.2)))
  | cs => (floatDigits cs).map (fun t => ((t.1 : Rat) + (t.2.1 : Rat) / ((10 : Rat) ^ t.2.2)))

/-- The target-type converters the mapping tables attach to fields
(`str`, `int`, `float` in the source's `mappings` module).  `none` models a
raised `ValueError`. -/
inductive Dtype where
  | toStr
  | toInt
  | toFloat
deriving DecidableEq

/-- Apply a converter to a raw string. -/
def Dtype.run : Dtype → String → Option PyVal
  | .toStr, s => some (.str s)
  | .toInt, s => (pyIntParse s).map PyVal.int
  | .toFloat, s => (pyFloatParse s).map PyVal.float

/-- One entry of a mapping table: either a whole-line field (`index` is a
line index into the block) or a nested group of token fields packed into one
physical line (each sub-entry carries its token index and converter). -/
inductive MapVal where
  | simple (index : Nat) (dtype : Dtype)
  | nested (index : Nat) (sub : List (String × Nat × Dtype))
deriving DecidableEq

/-- A declarative mapping table (the shape of the tables in the source's
`mappings` module): field name to extraction descriptor, in order. -/
abbrev Mapping := List (String × MapVal)

/-- All field names a mapping produces (nested groups contribute their
sub-field names). -/
def mappingKeys (m : Mapping) : List String :=
  (m.map (fun kv => match kv.2 with
    | .simple _ _ => [kv.1]
    | .nested _ sub => sub.map (fun s => s.1))).flatten

/-- Value of one nested sub-field: `block[lineIdx].split()[tokIdx]` converted,
with `IndexError`/`ValueError` caught and degraded to `nan`
(`_parse_metadata_block`, nested branch). -/
def nestedFieldValue (block : List String) (lineIdx tokIdx : Nat) (dt : Dtype) : PyVal :=
  match block.get? lineIdx with
  | none => .nan
  | some line =>
    match (splitWs line).get? tokIdx with
    | none => .nan
    | some tok => (Dtype.run dt tok).getD .nan

/-- The loop of `_parse_metadata_block` over the mapping items, carrying
the partially built record; the first uncaught exception aborts it. -/
def parseMetadataBlockAux (block : List String) : Mapping → PyRec → Except PyErr PyRec
  | [], acc => pure acc
  | kv :: rest, acc =>
    match kv.2 with
    | .nested idx sub =>
      parseMetadataBlockAux block rest
        (sub.foldl (fun a s => recSet a s.1 (nestedFieldValue block idx s.2.1 s.2.2)) acc)
    | .simple idx dt =>
      match block.get? idx with
      | none => parseMetadataBlockAux block rest (recSet acc kv.1 .nan)
      | some line =>
        match Dtype.run dt line with
        | some v => parseMetadataBlockAux block rest (recSet acc kv.1 v)
        | none => throw (PyErr.valueError "could not convert string to mapped dtype")

/-- `_parse_metadata_block`: apply a mapping table to a block of lines.
Nested sub-fields degrade to `nan` on `IndexError` or `ValueError`; simple
whole-line fields degrade to `nan` only on `IndexError`, and a failed type
conversion there raises `ValueError` (the source's `except IndexError`
does not catch it). -/
def parseMetadataBlock (block : List String) (mapping : Mapping) : Except PyErr PyRec :=
  parseMetadataBlockAux block mapping []

/-- `_initialize_empty_mapping`: a record with every mapped field set to
the missing-value sentinel. -/
def initializeEmptyMapping (m : Mapping) : PyRec :=
  m.foldl
    (fun acc kv =>
      match kv.2 with
      | .nested _ sub => sub.foldl (fun a s => recSet a s.1 PyVal.nan) acc
      | .simple _ _ => recSet acc kv.1 .nan)
    []

/-- A data-row mapping table: field name, token index, converter. -/
abbrev DataMapping := List (String × Nat × Dtype)

/-- One row of `_parse_data_block`: each field looked up in the tokenized
line, `IndexError`/`ValueError` degrading to `nan`. -/
def parseDataLine (mapping : DataMapping) (lineVals : List String) : PyRec :=
  mapping.foldl
    (fun acc kv =>
      recSet acc kv.1
        (match lineVals.get? kv.2.1 with
         | none => .nan
         | some tok => (Dtype.run kv.2.2 tok).getD .nan))
    []

/-- `_parse_data_block`: one record per line, via a pluggable tokenizer
(which may itself raise). -/
def parseDataBlock (block : List String) (mapping : DataMapping)
    (splitFn : String → Except PyErr (List String)) : Except PyErr (List PyRec) :=
  block.mapM (fun line => do
    let lineVals ← splitFn line
    pure (parseDataLine mapping lineVals))

/-- `_tot_split_func`: plain whitespace split. -/
def totSplitFunc (line : String) : Except PyErr (List String) := pure (splitWs line)

/-- `_prv_split_func`: plain whitespace split. -/
def prvSplitFunc (line : String) : Except PyErr (List String) := pure (splitWs line)

/-- Does `cs` start with `pat`? -/
def listStartsWith : List Char → List Char → Bool
  | _, [] => true
  | [], _ :: _ => false
  | c :: cs, p :: ps => c == p && listStartsWith cs ps

/-- First index of `pat` as a contiguous sublist of the argument
(Python `str.index`, `none` modelling the raised `ValueError`). -/
def findSubAux (pat : List Char) : List Char → Option Nat
  | [] => if listStartsWith [] pat then some 0 else none
  | c :: cs =>
    if listStartsWith (c :: cs) pat then some 0
    else (findSubAux pat cs).map (fun n => n + 1)

/-- `_cpt_split_func` with its default 25-character comment width: first four
whitespace tokens, the fourth located in the raw line (raising `IndexError`
on an all-whitespace line and `ValueError` when the search fails), then a
fixed 25-character comment span, stripped, then trailing tokens. -/
def cptSplitFunc (line : String) : Except PyErr (List String) := do
  let firstValues := (splitWs line).take 4
  match firstValues.getLast? with
  | none => throw PyErr.indexError
  | some last =>
    let indexStr := " " ++ last ++ " "
    match findSubAux indexStr.toList line.toList with
    | none => throw (PyErr.valueError "substring not found")
    | some fourthIndex =>
      let startIndexComment := fourthIndex + last.length + 1
      let cs := line.toList
      let comment := String.mk ((cs.drop startIndexComment).take 25)
      let lastValues := splitWs (String.mk (cs.drop (startIndexComment + 25)))
      pure (firstValues ++ [pyStrip comment] ++ lastValues)

/-! ## Date parsing (`_try_parse_datetime`, `_DATETIME_FMTS`) -/

/-- Gregorian leap year (CPython `datetime` validation). -/
def isLeap (y : Nat) : Bool := y % 4 == 0 && (y % 100 != 0 || y % 400 == 0)

/-- Days in a month. -/
def daysInMonth (y m : Nat) : Nat :=
  if m == 2 then (if isLeap y then 29 else 28)
  else if m == 4 || m == 6 || m == 9 || m == 11 then 30
  else 31

/-- `datetime(y, m, d)` succeeds: valid calendar date inside CPython's
supported year range. -/
def validDate (y m d : Nat) : Bool :=
  1 ≤ y && y ≤ 9999 && 1 ≤ m && m ≤ 12 && 1 ≤ d && d ≤ daysInMonth y m

/-- Full match of CPython strptime's day pattern `3[01]|[12]\d|0[1-9]|[1-9]`. -/
def dayTokVal (s : String) : Option Nat :=
  match s.toList with
  | [c] => if '1' ≤ c && c ≤ '9' then some (c.toNat - 48) else none
  | [a, b] =>
    if a == '3' && (b == '0' || b == '1') then some (30 + (b.toNat - 48))
    else if (a == '1' || a == '2') && b.isDigit then some ((a.toNat - 48) * 10 + (b.toNat - 48))
    else if a == '0' && '1' ≤ b && b ≤ '9' then some (b.toNat - 48)
    else none
  | _ => none

/-- Full match of strptime's month pattern `1[0-2]|0[1-9]|[1-9]`. -/
def monthTokVal (s : String) : Option Nat :=
  match s.toList with
  | [c] => if '1' ≤ c && c ≤ '9' then some (c.toNat - 48) else none
  | [a, b] =>
    if a == '1' && (b == '0' || b == '1' || b == '2') then some (10 + (b.toNat - 48))
    else if a == '0' && '1' ≤ b && b ≤ '9' then some (b.toNat - 48)
    else none
  | _ => none

/-- Full match of strptime's 4-digit year pattern. -/
def year4Val (s : String) : Option Nat :=
  match s.toList with
  | [a, b, c, d] =>
    if a.isDigit && b.isDigit && c.isDigit && d.isDigit then some (digitsVal [a, b, c, d])
    else none
  | _ => none

/-- Full match of strptime's 2-digit year pattern, widened by its
century rule (`< 69` means 2000s, else 1900s). -/
def year2Val (s : String) : Option Nat :=
  match s.toList with
  | [a, b] =>
    if a.isDigit && b.isDigit then
      some (if digitsVal [a, b] < 69 then 2000 + digitsVal [a, b] else 1900 + digitsVal [a, b])
    else none
  | _ => none

/-- Split on every occurrence of one separator character, keeping empty
pieces (Python `str.split(sep)`). -/
def splitOnCharAux (sep : Char) : List Char → List Char → List (List Char)
  | [], acc => [acc.reverse]
  | c :: cs, acc =>
    if c == sep then acc.reverse :: splitOnCharAux sep cs []
    else splitOnCharAux sep cs (c :: acc)

/-- Python `s.split(sep)` for a one-character separator. -/
def pySplitOnChar (sep : Char) (s : String) : List String :=
  (splitOnCharAux sep s.toList []).map (fun l => String.mk l)

/-- strptime format `%d.%m.%Y`: day and month tokens between literal dots,
then a 4-digit year; a regex match with an invalid calendar date raises
`ValueError`, which the format loop treats like a non-match. -/
def fmtDmY (s : String) : Option (Nat × Nat × Nat) :=
  match pySplitOnChar '.' s with
  | [ds, ms, ys] => do
    let d ← dayTokVal ds
    let m ← monthTokVal ms
    let y ← year4Val ys
    if validDate y m d then some (y, m, d) else none
  | _ => none

/-- strptime format `%Y-%m-%d`. -/
def fmtYmd (s : String) : Option (Nat × Nat × Nat) :=
  match pySplitOnChar '-' s with
  | [ys, ms, ds] => do
    let y ← year4Val ys
    let m ← monthTokVal ms
    let d ← dayTokVal ds
    if validDate y m d then some (y, m, d) else none
  | _ => none

/-- strptime format `%Y-%d-%m`. -/
def fmtYdm (s : String) : Option (Nat × Nat × Nat) :=
  match pySplitOnChar '-' s with
  | [ys, ds, ms] => do
    let y ← year4Val ys
    let d ← dayTokVal ds
    let m ← monthTokVal ms
    if validDate y m d then some (y, m, d) else none
  | _ => none

/-- strptime format `%d.%m.%y`. -/
def fmtDmy2 (s : String) : Option (Nat × Nat × Nat) :=
  match pySplitOnChar '.' s with
  | [ds, ms, ys] => do
    let d ← dayTokVal ds
    let m ← monthTokVal ms
    let y ← year2Val ys
    if validDate y m d then some (y, m, d) else none
  | _ => none

/-- Month-pattern candidates on an unanchored character stream, in the regex
alternation (backtracking) order `1[0-2]`, `0[1-9]`, `[1-9]`: each candidate
is the matched value with the remaining characters. -/
def monthCands (cs : List Char) : List (Nat × List Char) :=
  (match cs with
   | '1' :: b :: rest =>
     if b == '0' || b == '1' || b == '2' then [(10 + (b.toNat - 48), rest)] else []
   | _ => []) ++
  (match cs with
   | '0' :: b :: rest => if '1' ≤ b && b ≤ '9' then [((b.toNat - 48), rest)] else []
   | _ => []) ++
  (match cs with
   | c :: rest => if '1' ≤ c && c ≤ '9' then [((c.toNat - 48), rest)] else []
   | _ => [])

/-- Day-pattern candidates in the alternation order
`3[01]`, `[12]\d`, `0[1-9]`, `[1-9]`. -/
def dayCands (cs : List Char) : List (Nat × List Char) :=
  (match cs with
   | '3' :: b :: rest => if b == '0' || b == '1' then [(30 + (b.toNat - 48), rest)] else []
   | _ => []) ++
  (match cs with
   | a :: b :: rest =>
     if (a == '1' || a == '2') && b.isDigit then [((a.toNat - 48) * 10 + (b.toNat - 48), rest)]
     else []
   | _ => []) ++
  (match cs with
   | '0' :: b :: rest => if '1' ≤ b && b ≤ '9' then [((b.toNat - 48), rest)] else []
   | _ => []) ++
  (match cs with
   | c :: rest => if '1' ≤ c && c ≤ '9' then [((c.toNat - 48), rest)] else []
   | _ => [])

/-- strptime format `%Y%m0%d`: four digit-chars of year, then the first full
backtracking match of month, literal `0`, day against the rest of the
string; the matched date is then validated. -/
def fmtYm0d (s : String) : Option (Nat × Nat × Nat) :=
  match s.toList with
  | a :: b :: c :: d :: rest =>
    if a.isDigit && b.isDigit && c.isDigit && d.isDigit then
      let y := digitsVal [a, b, c, d]
      match (monthCands rest).findSome? (fun mc =>
        match mc.2 with
        | '0' :: r2 =>
          (dayCands r2).findSome? (fun dc => if dc.2.isEmpty then some (mc.1, dc.1) else none)
        | _ => none) with
      | some md => if validDate y md.1 md.2 then some (y, md.1, md.2) else none
      | none => none
    else none
  | _ => none

/-- `_try_parse_datetime`: the ordered fallback chain over `_DATETIME_FMTS`
(`%d.%m.%Y`, `%Y-%m-%d`, `%Y%m0%d`, `%d.%m.%y`, `%Y-%d-%m`); `none` models
the final raised `ValueError`. -/
def tryParseDatetime (s : String) : Option (Nat × Nat × Nat) :=
  (fmtDmY s).orElse (fun _ =>
    (fmtYmd s).orElse (fun _ =>
      (fmtYm0d s).orElse (fun _ =>
        (fmtDmy2 s).orElse (fun _ => fmtYdm s))))

/-! ## Survey dispatcher and segmenters -/

/-- `_KNOWN_SURVEY_CODES`. -/
def knownSurveyCodes : List Nat := [7, 10, 21, 22, 23, 24, 25, 26]

/-- The first-line test of `_is_data_block`: exactly two whitespace tokens,
an all-digits survey code in the known set, and a date that parses — with
the `except` path accepting an all-digits second token when date parsing
raises. -/
def isDataBlockLine (firstLine : String) : Bool :=
  let vals := splitWs firstLine
  if vals.length != 2 then false
  else
    let surveyCode := vals.getD 0 ""
    let date := vals.getD 1 ""
    if pyIsDigitStr surveyCode && knownSurveyCodes.contains (digitsVal surveyCode.toList) then
      match tryParseDatetime date with
      | some _ => true
      | none => pyIsDigitStr date
    else false

/-- `_is_data_block` (`block[0]` raises `IndexError` on an empty block). -/
def isDataBlock (block : List String) : Except PyErr Bool :=
  match block with
  | [] => throw .indexError
  | l :: _ => pure (isDataBlockLine l)

/-- `_is_unknown_material`: the first line's last whitespace token equals
the soil-type literal `"Annet"`. -/
def isUnknownMaterial (block : List String) : Except PyErr Bool :=
  match block with
  | [] => throw .indexError
  | l :: _ =>
    match (splitWs l).getLast? with
    | none => throw .indexError
    | some t => pure (t == "Annet")

/-- `_add_empty_value_as_material_text_1`: copy the block and assign
`"None" + block[0]` to its first line (string concatenation, no separator).
Only reached on nonempty blocks (the guard raises first on empty ones). -/
def addEmptyValueAsMaterialText1 (block : List String) : List String :=
  match block with
  | [] => []
  | l :: ls => ("None" ++ l) :: ls

/-- Worker for `_split_tlk_to_blocks`: `blocks` are the finished groups,
`block` the group in progress, `c` its line count; an asterisk line stops
consumption, and the in-progress group is appended afterwards in every
case (the source's final `blocks.append(block)`). -/
def splitTlkAux : List String → List (List String) → List String → Nat → List (List String)
  | [], blocks, block, _ => blocks ++ [block]
  | line :: rest, blocks, block, c =>
    if line == "*" then blocks ++ [block]
    else if c == 3 then splitTlkAux rest (blocks ++ [block]) [line] 1
    else splitTlkAux rest blocks (block ++ [line]) (c + 1)

/-- `_split_tlk_to_blocks`. -/
def splitTlkToBlocks (lines : List String) : List (List String) :=
  splitTlkAux lines [] [] 0

/-- Worker for `_get_blocks`: append the current group on each asterisk
line (possibly empty), plus the final nonempty group. -/
def getBlocksAux : List String → List (List String) → List String → List (List String)
  | [], blocks, cur => if cur.isEmpty then blocks else blocks ++ [cur]
  | l :: ls, blocks, cur =>
    if l == "*" then getBlocksAux ls (blocks ++ [cur]) []
    else getBlocksAux ls blocks (cur ++ [l])

/-- `_get_blocks`: sentinel-delimited segmentation with empty blocks
removed at the end. -/
def getBlocks (lines : List String) : List (List String) :=
  (getBlocksAux lines [] []).filter (fun b => !b.isEmpty)

/-! ## Symbol decoder (`_label_from_symbol` and its label tables) -/

/-- `_SYMBOL_LABELS_NEG` as written in the source: the missing comma after
`'Trerester'` fuses it with `'Kvikkleire'`, so the table has 13 entries and
its last entry is the concatenation. -/
def symbolLabelsNeg : List PyVal :=
  [.str "Leire", .str "Fyllemasse", .str "Grus", .str "Matjord", .str "Berg",
   .str "Sand", .str "Skjell", .str "Silt", .str "Stein & blokk", .str "Morene",
   .str "Torv", .str "Gytje, dy", .str "TreresterKvikkleire"]

/-- `_SYMBOL_LABELS_POS` (index 0 is `np.nan`). -/
def symbolLabelsPos : List PyVal :=
  [.nan, .str "Leire", .str "Silt", .str "Sand", .str "Grus", .str "Stein",
   .str "Fyllemasse", .str "Matjord", .str "Trerester", .str "Skjell", .str "Kvikkleire"]

/-- Binary digits of a natural number, least significant first (the
characters of `bin(n)[2:]` reversed); fuel-structured so it reduces. -/
def bitsLsbAux : Nat → Nat → List Nat
  | 0, _ => []
  | _ + 1, 0 => []
  | fuel + 1, n + 1 => ((n + 1) % 2) :: bitsLsbAux fuel ((n + 1) / 2)

/-- Little-endian binary digits of `n`. -/
def bitsLsb (n : Nat) : List Nat := bitsLsbAux n n

/-- Decimal digits of a natural number, least significant first. -/
def decDigitsAux : Nat → Nat → List Nat
  | 0, _ => []
  | _ + 1, 0 => []
  | fuel + 1, n + 1 => ((n + 1) % 10) :: decDigitsAux fuel ((n + 1) / 10)

/-- The digit characters of `str(n)` for positive `n`, most significant
first. -/
def decDigitsMsb (n : Nat) : List Nat := (decDigitsAux n n).reverse

/-- `_label_from_symbol`: negative symbols select negative-table labels at
the positions of set bits (ascending, over the 13-zero-filled width);
positive symbols select positive-table labels per decimal digit, left to
right; zero yields no labels.  A table index out of range raises. -/
def labelFromSymbol (symbol : Int) : Except PyErr (List PyVal) :=
  if symbol < 0 then
    let bits := bitsLsb symbol.natAbs
    let positions := (List.range (max 13 bits.length)).filter (fun p => bits.getD p 0 == 1)
    positions.mapM (fun p =>
      match symbolLabelsNeg.get? p with
      | some l => pure l
      | none => throw PyErr.indexError)
  else if symbol > 0 then
    (decDigitsMsb symbol.toNat).mapM (fun d =>
      match symbolLabelsPos.get? d with
      | some l => pure l
      | none => throw PyErr.indexError)
  else pure []

/-- `" ".join(vals)`: raises `TypeError` when any element is not a string
(in particular the positive table's `np.nan` entry). -/
def pyJoinSpace (vals : List PyVal) : Except PyErr String := do
  let strs ← vals.mapM (fun v =>
    match v with
    | .str s => pure s
    | _ => throw PyErr.typeError)
  pure (String.intercalate " " strs)

/-- Python `int(v)` on a decoded value: floats truncate toward zero, `nan`
and bad strings raise `ValueError`. -/
def pyIntOfVal : PyVal → Except PyErr Int
  | .int n => pure n
  | .float q => pure (Int.tdiv q.num q.den)
  | .nan => throw (PyErr.valueError "cannot convert float NaN to integer")
  | .str s =>
    match pyIntParse s with
    | some n => pure n
    | none => throw (PyErr.valueError "invalid literal for int with base 10")
  | .date _ _ _ => throw PyErr.typeError

/-- Python truthiness test `not v` for the values that can appear here. -/
def pyFalsy : PyVal → Bool
  | .str s => s == ""
  | .int n => n == 0
  | .float q => q == 0
  | .nan => false
  | .date _ _ _ => false

/-- `_extract_and_add_symbol_text`, exactly as written: every row gets
`symbol_soiltype` set to the space-joined labels of its symbol, but the
`if not row["symbol_soiltype"]` patch sits after the loop, so only the
final row's empty string is replaced by `nan` (and empty input trips the
leaked loop variable, a `NameError`). -/
def extractAndAddSymbolText (data : List PyRec) : Except PyErr (List PyRec) := do
  let rows ← data.mapM (fun row => do
    let symbol ←
      match recGet? row "symbol" with
      | some v => pure v
      | none => throw (PyErr.keyError "symbol")
    let n ← pyIntOfVal symbol
    let soiltypes ← labelFromSymbol n
    let joined ← pyJoinSpace soiltypes
    pure (recSet row "symbol_soiltype" (.str joined)))
  match rows.getLast? with
  | none => throw PyErr.nameError
  | some lastRow =>
    if pyFalsy ((recGet? lastRow "symbol_soiltype").getD .nan) then
      pure (rows.dropLast ++ [recSet lastRow "symbol_soiltype" .nan])
    else pure rows

/-! ## Comment-code indicator conversion -/

/-- The indicator dict initialized per row by
`_convert_comment_codes_to_indicator_columns`. -/
structure Indicators where
  oktRotasjon : PyVal
  spyling : PyVal
  slag : PyVal
  pumping : PyVal
  commentLabel : List Int
deriving DecidableEq

/-- The initial indicator values (all `nan`, empty label accumulator). -/
def initIndicators : Indicators := ⟨.nan, .nan, .nan, .nan, []⟩

/-- `_modify_indicator_by_code`.  `labelCodes` is membership in the keys of
`geosuite_code_to_label` from the missing `mappings` module (modelled from
the spec: such codes append to the label accumulator instead of toggling). -/
def modifyIndicatorByCode (labelCodes : Int → Bool) (code : Int)
    (indicators : Indicators) : Indicators :=
  if labelCodes code then { indicators with commentLabel := indicators.commentLabel ++ [code] }
  else if code == 70 then { indicators with oktRotasjon := .int 1 }
  else if code == 71 then { indicators with oktRotasjon := .int 0 }
  else if code == 72 then { indicators with spyling := .int 1 }
  else if code == 73 then { indicators with spyling := .int 0 }
  else if code == 74 then { indicators with slag := .int 1 }
  else if code == 75 then { indicators with slag := .int 0 }
  else if code == 76 then { indicators with slag := .int 1, spyling := .int 1 }
  else if code == 77 then { indicators with slag := .int 0, spyling := .int 0 }
  else if code == 78 then { indicators with pumping := .int 1 }
  else if code == 79 then { indicators with pumping := .int 0 }
  else indicators

/-- Modelled from the spec: token recognition against the
`geosuite_textcode_to_code` table of the missing `mappings` module — each
whitespace token is translated via the table when applicable and kept when
the result is a known numeric code, so recognition is a parameter. -/
def recognizedCodes (recognize : String → Option Int) (comments : String) : List Int :=
  (splitWs comments).filterMap recognize

/-- The exception-free part of one row's conversion: fold the recognized
codes of the comment (when it is a string) through
`_modify_indicator_by_code`, collapse the label accumulator to its maximum
(or `nan`), and merge the indicator fields over the row. -/
def convertRowCore (labelCodes : Int → Bool) (recognize : String → Option Int)
    (comments : PyVal) (row : PyRec) : PyRec :=
  let codes :=
    match comments with
    | .str s => recognizedCodes recognize s
    | _ => []
  let indicators := codes.foldl (fun ind c => modifyIndicatorByCode labelCodes c ind) initIndicators
  let labelVal :=
    match indicators.commentLabel with
    | [] => PyVal.nan
    | c :: cs => PyVal.int (cs.foldl max c)
  recMerge row
    [("okt_rotasjon", indicators.oktRotasjon), ("spyling", indicators.spyling),
     ("slag", indicators.slag), ("pumping", indicators.pumping), ("comment_label", labelVal)]

/-- One row of `_convert_comment_codes_to_indicator_columns`
(`row["kommentar"]` raises `KeyError` when absent). -/
def convertRow (labelCodes : Int → Bool) (recognize : String → Option Int)
    (row : PyRec) : Except PyErr PyRec :=
  match recGet? row "kommentar" with
  | some comments => pure (convertRowCore labelCodes recognize comments row)
  | none => throw (PyErr.keyError "kommentar")

/-- `_convert_comment_codes_to_indicator_columns`. -/
def convertCommentCodesToIndicatorColumns (labelCodes : Int → Bool)
    (recognize : String → Option Int) (rows : List PyRec) : Except PyErr (List PyRec) :=
  rows.mapM (convertRow labelCodes recognize)

/-! ## Format orchestrators -/

/-- Result of `parse_tlk_file`. -/
structure TlkResult where
  typeTag : String
  data : List PyRec
  errors : List String
deriving DecidableEq

/-- The per-block body of `parse_tlk_file`: patch the first line when the
block carries the unknown-material marker, then apply the mapping. -/
def tlkParseBlock (mapping : Mapping) (block : List String) : Except PyErr PyRec := do
  let isUnknown ← isUnknownMaterial block
  let block2 := if isUnknown then addEmptyValueAsMaterialText1 block else block
  parseMetadataBlock block2 mapping

/-- `parse_tlk_file`, parametrized by `tlk_data_mapping` from the missing
`mappings` module.  Every per-block exception is caught, stringified, and
appended to the error list. -/
def parseTlkFile (mapping : Mapping) (lines : List String) : Except PyErr TlkResult :=
  if lines.isEmpty then
    pure ⟨"tlk", [], ["No lines found. Could not parse file"]⟩
  else
    let blocks := splitTlkToBlocks lines
    let step := blocks.foldl
      (fun acc block =>
        match tlkParseBlock mapping block with
        | .ok row => (acc.1 ++ [row], acc.2)
        | .error e => (acc.1, acc.2 ++ [pyErrMsg e]))
      ([], [])
    pure ⟨"tlk", step.1, step.2⟩

/-- The tables `parse_snd_file` pulls from the missing `mappings` module,
plus the geosuite comment-code tables (modelled from the spec as
parameters). -/
structure SndMappings where
  firstBlock : Mapping
  secondBlock : Mapping
  thirdBlock : Mapping
  dataBlockMetadata : Mapping
  totData : DataMapping
  cptData : DataMapping
  cptUnknownBlock : Mapping
  labelCodes : Int → Bool
  recognize : String → Option Int

/-- `_get_data_block_survey_type` (raises `IndexError` when the key is
absent from the parsed metadata). -/
def getDataBlockSurveyType (metadata : PyRec) : Except PyErr PyVal :=
  match recGet? metadata "survey_type_code" with
  | none => throw .indexError
  | some v => pure v

/-- Python `v == n` against an int literal (true for equal ints and
equal-valued floats). -/
def pyEqInt (v : PyVal) (n : Int) : Bool :=
  match v with
  | .int m => m == n
  | .float q => q == (n : Rat)
  | _ => false

/-- `_parse_unknown_data_block`: first two lines are block metadata, the
rest data rows decoded by the survey subtype's mapping and tokenizer;
an unrecognized subtype raises `ValueError`. -/
def parseUnknownDataBlock (M : SndMappings) (block : List String) :
    Except PyErr (PyRec × List PyRec) := do
  let metadataLines := block.take 2
  let dataLines := block.drop 2
  let metadata ← parseMetadataBlock metadataLines M.dataBlockMetadata
  let surveyType ← getDataBlockSurveyType metadata
  if pyEqInt surveyType 25 then do
    let data ← parseDataBlock dataLines M.totData totSplitFunc
    pure (metadata, data)
  else if pyEqInt surveyType 7 then do
    let data ← parseDataBlock dataLines M.cptData cptSplitFunc
    pure (metadata, data)
  else throw (PyErr.valueError "Unknown survey_type")

/-- `_SURVEY_CODE_TO_TEXT` lookup (`{25: "tot", 7: "cpt"}`), raising
`KeyError` for other codes. -/
def surveyCodeToText (v : PyVal) : Except PyErr String :=
  if pyEqInt v 25 then pure "tot"
  else if pyEqInt v 7 then pure "cpt"
  else throw (PyErr.keyError "survey_type_code")

/-- One decoded measurement series inside a sound file: the merged metadata
dict of the entry, with its `"data"` key (the decoded rows) held apart. -/
structure DataBlockEntry where
  fields : PyRec
  data : List PyRec
deriving DecidableEq

/-- How one iteration of the sound-file block scan ends: a CPT entry (which
breaks the loop), a tot entry (loop continues), or nothing appended. -/
inductive ScanOutcome where
  | cptEntry (entry : DataBlockEntry)
  | totEntry (entry : DataBlockEntry)
  | skip
deriving DecidableEq

/-- The `try` body of the sound-file scan loop for one data block:
dispatch via `_parse_unknown_data_block`, tag the entry type, and for CPT
consume the immediately following block (`nextBlock`) as trailing metadata
(missing-value sentinels when absent). -/
def sndScanBody (M : SndMappings) (block : List String)
    (nextBlock : Option (List String)) : Except PyErr ScanOutcome := do
  let md ← parseUnknownDataBlock M block
  let surveyType ←
    match recGet? md.1 "survey_type_code" with
    | some v => pure v
    | none => throw (PyErr.keyError "survey_type_code")
  let typeText ← surveyCodeToText surveyType
  let metadata := recSet md.1 "type" (.str typeText)
  if pyEqInt surveyType 7 then do
    let cptUnknownMetadata ←
      match nextBlock with
      | some tb => parseMetadataBlock tb M.cptUnknownBlock
      | none => pure (initializeEmptyMapping M.cptUnknownBlock)
    pure (.cptEntry ⟨recMerge metadata cptUnknownMetadata, md.2⟩)
  else if pyEqInt surveyType 25 then do
    let data2 ← convertCommentCodesToIndicatorColumns M.labelCodes M.recognize md.2
    pure (.totEntry ⟨metadata, data2⟩)
  else pure .skip

/-- The scan loop of `parse_snd_file` over the blocks after the metadata
blocks: non-data blocks are skipped, a `ValueError` in the body is caught
and recorded, a CPT entry breaks the loop, and any other exception
propagates. -/
def sndScan (M : SndMappings) :
    List (List String) → List DataBlockEntry → List String →
    Except PyErr (List DataBlockEntry × List String)
  | [], dataBlocks, errors => pure (dataBlocks, errors)
  | block :: rest, dataBlocks, errors => do
    let isdb ← isDataBlock block
    if isdb then
      match sndScanBody M block rest.head? with
      | .ok (.cptEntry entry) => pure (dataBlocks ++ [entry], errors)
      | .ok (.totEntry entry) => sndScan M rest (dataBlocks ++ [entry]) errors
      | .ok .skip => sndScan M rest dataBlocks errors
      | .error (.valueError msg) => sndScan M rest dataBlocks (errors ++ [msg])
      | .error e => throw e
    else sndScan M rest dataBlocks errors

/-- Result of `parse_snd_file`: the flattened metadata record, the decoded
series (`"blocks"`), and the error list. -/
structure SndResult where
  typeTag : String
  metadata : PyRec
  blocks : List DataBlockEntry
  errors : List String
deriving DecidableEq

/-- `parse_snd_file` with its default `min_blocks = 3`: fewer than three
blocks is a structural error; the first metadata block parse propagates its
exceptions, only the second is guarded by `except ValueError`; the third
block is consumed as metadata exactly when it does not classify as a data
block; then the remaining blocks are scanned. -/
def parseSndFile (M : SndMappings) (lines : List String) : Except PyErr SndResult := do
  let blocks := getBlocks lines
  let metadata0 :=
    recMerge (recMerge (initializeEmptyMapping M.firstBlock) (initializeEmptyMapping M.secondBlock))
      (initializeEmptyMapping M.thirdBlock)
  if blocks.length < 3 then
    pure ⟨"snd", metadata0, [], ["File contains less than 3 blocks. Cannot parse"]⟩
  else do
    let firstBlock ← parseMetadataBlock (blocks.getD 0 []) M.firstBlock
    match parseMetadataBlock (blocks.getD 1 []) M.secondBlock with
    | .error (.valueError _) =>
      pure ⟨"snd", metadata0, [], ["File doesnt contain second metadatablock. Cannot parse"]⟩
    | .error e => throw e
    | .ok secondBlock => do
      let isdb ← isDataBlock (blocks.getD 2 [])
      let thirdAndIndex ←
        if !isdb then do
          let tb ← parseMetadataBlock (blocks.getD 2 []) M.thirdBlock
          pure (tb, 3)
        else pure (initializeEmptyMapping M.thirdBlock, 2)
      let sndMetadata := recMerge (recMerge firstBlock secondBlock) thirdAndIndex.1
      let scanned ← sndScan M (blocks.drop thirdAndIndex.2) [] []
      pure ⟨"snd", sndMetadata, scanned.1, scanned.2⟩

/-- The tables `parse_prv_file` pulls from the missing `mappings` module. -/
structure PrvMappings where
  prvMetadata : Mapping
  prvData : DataMapping
deriving DecidableEq

/-- Result of `parse_prv_file`. -/
structure PrvResult where
  typeTag : String
  metadata : PyRec
  data : List PyRec
  errors : List String
deriving DecidableEq

/-- `parse_prv_file`: `blocks[0]` is indexed before the block count is
checked (so zero blocks raises `IndexError`); fewer than two blocks yields
empty data plus an error; otherwise the second block is decoded as rows and
annotated with symbol labels, a `ValueError` anywhere in that degrading
data to the empty list. -/
def parsePrvFile (M : PrvMappings) (lines : List String) : Except PyErr PrvResult := do
  let blocks := getBlocks lines
  let b0 ←
    match blocks.get? 0 with
    | some b => pure b
    | none => throw PyErr.indexError
  let metadata ← parseMetadataBlock b0 M.prvMetadata
  if blocks.length < 2 then
    pure ⟨"prv", metadata, [], ["PRV contains less than 2 blocks. Cannot parse"]⟩
  else
    let inner : Except PyErr (List PyRec) := do
      let d ← parseDataBlock (blocks.getD 1 []) M.prvData prvSplitFunc
      extractAndAddSymbolText d
    match inner with
    | .ok d => pure ⟨"prv", metadata, d, []⟩
    | .error (.valueError _) => pure ⟨"prv", metadata, [], []⟩
    | .error e => throw e

/-! ## Auxiliary definitions used by the verification statements -/

/-- Sufficient condition for `_parse_metadata_block` not to raise: every
simple (whole-line) field whose line exists converts successfully. -/
def simpleFieldsConvert (block : List String) (m : Mapping) : Bool :=
  m.all (fun kv =>
    match kv.2 with
    | .simple i dt =>
      (match block.get? i with
       | none => true
       | some line => (Dtype.run dt line).isSome)
    | .nested _ _ => true)

/-- The value the metadata extractor leaves at one key: `none` when the
whole extraction raised, otherwise the field's stored value. -/
def parsedField (block : List String) (m : Mapping) (k : String) : Option PyVal :=
  (parseMetadataBlock block m).toOption.bind (fun r => recGet? r k)

/-- The four boolean indicator flags toggled by comment codes. -/
inductive ToggleFlag where
  | oktRotasjon
  | spyling
  | slag
  | pumping
deriving DecidableEq

/-- The code that switches a flag off (71, 73, 75, 79). -/
def offCodeOf : ToggleFlag → Int
  | .oktRotasjon => 71
  | .spyling => 73
  | .slag => 75
  | .pumping => 79

/-- The dict key of a flag in the indicator record. -/
def flagName : ToggleFlag → String
  | .oktRotasjon => "okt_rotasjon"
  | .spyling => "spyling"
  | .slag => "slag"
  | .pumping => "pumping"

/-- The current value of a flag. -/
def flagOf (ind : Indicators) : ToggleFlag → PyVal
  | .oktRotasjon => ind.oktRotasjon
  | .spyling => ind.spyling
  | .slag => ind.slag
  | .pumping => ind.pumping

/-- Does a (non-label) code write to the given flag in
`_modify_indicator_by_code`? (76 and 77 write both `spyling` and `slag`.) -/
def togglesFlag (c : Int) : ToggleFlag → Bool
  | .oktRotasjon => c == 70 || c == 71
  | .spyling => c == 72 || c == 73 || c == 76 || c == 77
  | .slag => c == 74 || c == 75 || c == 76 || c == 77
  | .pumping => c == 78 || c == 79

/-- The flag field a converted row ends up with (`none` when conversion
raised). -/
def convertedFlag (labelCodes : Int → Bool) (recognize : String → Option Int)
    (row : PyRec) (f : ToggleFlag) : Option PyVal :=
  (convertRow labelCodes recognize row).toOption.bind (fun r2 => recGet? r2 (flagName f))

/-- Does the string start with a Python whitespace character? -/
def headIsSpace (s : String) : Bool :=
  match s.toList with
  | [] => false
  | c :: _ => pySpace c

/-! ## A store model for the mutation claims

Python lists are mutable heap objects.  To state that the parsers do not
mutate the caller's list of lines, the line lists are placed in an explicit
store of cells; every list-item assignment performed by the source becomes
a store write.  The only such assignment in the whole parser is
`temp_block[0] = "None" + temp_block[0]` in
`_add_empty_value_as_material_text_1`, which writes to a cell freshly
allocated by `block.copy()`; all other list operations are reads or appends
to freshly allocated lists. -/

/-- A store of list-of-string cells; a reference is an index into it. -/
structure Heap where
  cells : List (List String)

/-- Read a cell. -/
def Heap.get (h : Heap) (r : Nat) : List String := h.cells.getD r []

/-- Write a cell (list-item assignment happens through this). -/
def Heap.set (h : Heap) (r : Nat) (v : List String) : Heap := ⟨h.cells.set r v⟩

/-- Allocate a fresh cell. -/
def Heap.alloc (h : Heap) (v : List String) : Heap × Nat :=
  (⟨h.cells ++ [v]⟩, h.cells.length)

/-- Allocate one fresh cell per value. -/
def allocList : Heap → List (List String) → Heap × List Nat
  | h, [] => (h, [])
  | h, v :: vs =>
    let hr := h.alloc v
    let rest := allocList hr.1 vs
    (rest.1, hr.2 :: rest.2)

/-- `_add_empty_value_as_material_text_1` in the store model:
`block.copy()` allocates, then the item assignment writes the fresh cell. -/
def addEmptyValueAsMaterialText1H (h : Heap) (r : Nat) : Heap × Nat :=
  let copied := h.alloc (h.get r)
  let h2 := copied.1.set copied.2
    (match copied.1.get copied.2 with
     | [] => []
     | l :: ls => ("None" ++ l) :: ls)
  (h2, copied.2)

/-- The per-block body of `parse_tlk_file` in the store model. -/
def tlkParseBlockH (mapping : Mapping) (h : Heap) (r : Nat) : Heap × Except PyErr PyRec :=
  match isUnknownMaterial (h.get r) with
  | .error e => (h, .error e)
  | .ok true =>
    let patched := addEmptyValueAsMaterialText1H h r
    (patched.1, parseMetadataBlock (patched.1.get patched.2) mapping)
  | .ok false => (h, parseMetadataBlock (h.get r) mapping)

/-- `parse_tlk_file` in the store model: the caller's lines live in the
cell `linesRef`; segmentation allocates the block cells, and each block is
processed by `tlkParseBlockH`. -/
def parseTlkFileH (mapping : Mapping) (h : Heap) (linesRef : Nat) :
    Heap × Except PyErr TlkResult :=
  let lines := h.get linesRef
  if lines.isEmpty then (h, pure ⟨"tlk", [], ["No lines found. Could not parse file"]⟩)
  else
    let allocated := allocList h (splitTlkToBlocks lines)
    let step := allocated.2.foldl
      (fun (acc : Heap × List PyRec × List String) r =>
        let br := tlkParseBlockH mapping acc.1 r
        match br.2 with
        | .ok row => (br.1, acc.2.1 ++ [row], acc.2.2)
        | .error e => (br.1, acc.2.1, acc.2.2 ++ [pyErrMsg e]))
      (allocated.1, [], [])
    (step.1, pure ⟨"tlk", step.2.1, step.2.2⟩)

/-- `parse_snd_file` in the store model: its only list operations are reads
of the caller's cell and fresh allocations for the blocks (`_get_blocks`
and the slices; the source contains no item assignment on these lists). -/
def parseSndFileH (M : SndMappings) (h : Heap) (linesRef : Nat) :
    Heap × Except PyErr SndResult :=
  let allocated := allocList h (getBlocks (h.get linesRef))
  (allocated.1, parseSndFile M (h.get linesRef))

/-- `parse_prv_file` in the store model, analogously to `parseSndFileH`. -/
def parsePrvFileH (M : PrvMappings) (h : Heap) (linesRef : Nat) :
    Heap × Except PyErr PrvResult :=
  let allocated := allocList h (getBlocks (h.get linesRef))
  (allocated.1, parsePrvFile M (h.get linesRef))

/-- Concrete mapping tables for the sound-file witness: the survey type
code sits at token 0 of the data block's first metadata line, and the
trailing CPT metadata block is one guid line. -/
def sndWitnessMappings : SndMappings :=
  { firstBlock := [], secondBlock := [], thirdBlock := [],
    dataBlockMetadata := [("stcgrp", .nested 0 [("survey_type_code", 0, .toInt)])],
    totData := [], cptData := [], cptUnknownBlock := [("guid", .simple 0 .toStr)],
    labelCodes := fun _ => false, recognize := fun _ => none }

/-- Concrete token recognizer for the comment-code witness. -/
def witnessRecognize : String → Option Int :=
  fun s => if s = "70" then some 70 else if s = "71" then some 71 else none

/-! ## Lemmas on record (dict) operations -/

theorem recGet?_cons (p : String × PyVal) (r : PyRec) (k' : String) :
    recGet? (p :: r) k' = if p.1 = k' then some p.2 else recGet? r k' := by
  unfold recGet?
  by_cases h : p.1 = k'
  · rw [List.find?_cons_of_pos _ (by simpa using h)]
    simp [h]
  · rw [List.find?_cons_of_neg _ (by simpa using h)]
    simp [h]

theorem recSet_cons (p : String × PyVal) (r : PyRec) (k : String) (v : PyVal) :
    recSet (p :: r) k v =
      if p.1 = k then (k, v) :: r.map (fun q => if q.1 = k then (k, v) else q)
      else p :: recSet r k v := by
  unfold recSet
  by_cases hp : p.1 = k
  · simp [hp]
  · by_cases hr : r.any (fun q => q.1 = k)
    · simp [hp, hr]
    · simp [hp, hr]

theorem recGet?_map_replace_ne (r : PyRec) (k k' : String) (v : PyVal) (h : k' ≠ k) :
    recGet? (r.map (fun q => if q.1 = k then (k, v) else q)) k' = recGet? r k' := by
  induction r with
  | nil => rfl
  | cons p r ih =>
    rw [List.map_cons, recGet?_cons, recGet?_cons]
    by_cases hp : p.1 = k
    · simp only [hp, if_true]
      have h1 : ((k, v) : String × PyVal).1 ≠ k' := fun hh => h hh.symm
      have h2 : p.1 ≠ k' := by rw [hp]; exact h1
      simp only [if_neg h1, if_neg h2]
      exact ih
    · simp only [if_neg hp]
      by_cases hk' : p.1 = k'
      · simp [hk']
      · simp only [if_neg hk']
        exact ih

/-- `recSet` behaves as dict assignment on lookups. -/
theorem recGet?_recSet (r : PyRec) (k k' : String) (v : PyVal) :
    recGet? (recSet r k v) k' = if k' = k then some v else recGet? r k' := by
  induction r with
  | nil =>
    show recGet? (recSet [] k v) k' = _
    have hnil : recSet [] k v = [(k, v)] := by simp [recSet]
    rw [hnil, recGet?_cons]
    by_cases h : k' = k
    · simp [h]
    · have h1 : (k : String) ≠ k' := fun hh => h hh.symm
      simp [h, h1, recGet?]
  | cons p r ih =>
    rw [recSet_cons]
    by_cases hp : p.1 = k
    · simp only [hp, if_true]
      rw [recGet?_cons]
      by_cases hk : k' = k
      · simp [hk]
      · have h1 : (k : String) ≠ k' := fun hh => hk hh.symm
        simp only [if_neg h1]
        rw [recGet?_map_replace_ne r k k' v hk, recGet?_cons]
        have h2 : p.1 ≠ k' := by rw [hp]; exact h1
        simp [if_neg h2, hk]
    · simp only [if_neg hp]
      rw [recGet?_cons, recGet?_cons]
      by_cases hk' : p.1 = k'
      · have hne : ¬(k' = k) := fun hh => hp (hk' ▸ hh ▸ rfl)
        simp [hk', hne]
      · simp only [if_neg hk']
        exact ih

theorem recGet?_recSet_isSome (r : PyRec) (k k' : String) (v : PyVal)
    (h : (recGet? r k').isSome) : (recGet? (recSet r k v) k').isSome := by
  rw [recGet?_recSet]
  split <;> simp [h]

theorem recGet?_recSet_self_isSome (r : PyRec) (k : String) (v : PyVal) :
    (recGet? (recSet r k v) k).isSome := by
  rw [recGet?_recSet]
  simp

theorem foldl_recSet_pres (g : String × Nat × Dtype → PyVal) :
    ∀ (sub : List (String × Nat × Dtype)) (acc : PyRec) (k : String),
      (recGet? acc k).isSome = true →
      (recGet? (sub.foldl (fun a s => recSet a s.1 (g s)) acc) k).isSome = true := by
  intro sub
  induction sub with
  | nil => intro acc k h; exact h
  | cons s rest ih =>
    intro acc k h
    exact ih (recSet acc s.1 (g s)) k (recGet?_recSet_isSome acc s.1 k (g s) h)

theorem foldl_recSet_mem (g : String × Nat × Dtype → PyVal) :
    ∀ (sub : List (String × Nat × Dtype)) (acc : PyRec) (k : String),
      k ∈ sub.map (fun s => s.1) →
      (recGet? (sub.foldl (fun a s => recSet a s.1 (g s)) acc) k).isSome = true := by
  intro sub
  induction sub with
  | nil => intro acc k h; simp at h
  | cons s rest ih =>
    intro acc k h
    rw [List.map_cons, List.mem_cons] at h
    cases h with
    | inl h =>
      subst h
      exact foldl_recSet_pres g rest _ _ (recGet?_recSet_self_isSome acc s.1 (g s))
    | inr h => exact ih _ k h

/-- `_parse_metadata_block` succeeds and produces every mapped key whenever
all simple-field conversions on existing lines succeed; nested fields need
no such condition. -/
theorem parseMetadataBlockAux_ok (block : List String) :
    ∀ (m : Mapping) (acc : PyRec),
      simpleFieldsConvert block m = true →
      ∃ r, parseMetadataBlockAux block m acc = .ok r ∧
        (∀ k, (recGet? acc k).isSome = true → (recGet? r k).isSome = true) ∧
        (∀ k, k ∈ mappingKeys m → (recGet? r k).isSome = true) := by
  intro m
  induction m with
  | nil =>
    intro acc _
    exact ⟨acc, rfl, fun k h => h, fun k h => by simp [mappingKeys] at h⟩
  | cons kv rest ih =>
    intro acc hconv
    have hconvrest : simpleFieldsConvert block rest = true := by
      simp only [simpleFieldsConvert, List.all_cons, Bool.and_eq_true] at hconv
      exact hconv.2
    have hconvhead := by
      simp only [simpleFieldsConvert, List.all_cons, Bool.and_eq_true] at hconv
      exact hconv.1
    match hkv : kv.2 with
    | .nested idx sub =>
      have hstep := ih (sub.foldl (fun a s => recSet a s.1 (nestedFieldValue block idx s.2.1 s.2.2)) acc) hconvrest
      obtain ⟨r, hok, hpres, hmem⟩ := hstep
      refine ⟨r, ?_, ?_, ?_⟩
      · rw [parseMetadataBlockAux, hkv]
        dsimp only
        exact hok
      · intro k h
        exact hpres k (foldl_recSet_pres _ sub acc k h)
      · intro k h
        rw [show mappingKeys (kv :: rest) = (match kv.2 with
              | .simple _ _ => [kv.1]
              | .nested _ sub => sub.map (fun s => s.1)) ++ mappingKeys rest from rfl] at h
        rw [hkv] at h
        rcases List.mem_append.mp h with h | h
        · exact hpres k (foldl_recSet_mem _ sub acc k h)
        · exact hmem k h
    | .simple idx dt =>
      rw [hkv] at hconvhead
      dsimp only at hconvhead
      match hline : block.get? idx with
      | none =>
        obtain ⟨r, hok, hpres, hmem⟩ := ih (recSet acc kv.1 .nan) hconvrest
        refine ⟨r, ?_, ?_, ?_⟩
        · rw [parseMetadataBlockAux, hkv]
          dsimp only
          rw [hline]
          exact hok
        · intro k h
          exact hpres k (recGet?_recSet_isSome acc kv.1 k .nan h)
        · intro k h
          rw [show mappingKeys (kv :: rest) = (match kv.2 with
                | .simple _ _ => [kv.1]
                | .nested _ sub => sub.map (fun s => s.1)) ++ mappingKeys rest from rfl, hkv] at h
          rcases List.mem_append.mp h with h | h
          · rw [List.mem_singleton] at h
            subst h
            exact hpres kv.1 (recGet?_recSet_self_isSome acc kv.1 .nan)
          · exact hmem k h
      | some line =>
        rw [hline] at hconvhead
        dsimp only at hconvhead
        simp only [Option.isSome_iff_exists] at hconvhead
        obtain ⟨v, hv⟩ := hconvhead
        obtain ⟨r, hok, hpres, hmem⟩ := ih (recSet acc kv.1 v) hconvrest
        refine ⟨r, ?_, ?_, ?_⟩
        · rw [parseMetadataBlockAux, hkv]
          dsimp only
          rw [hline]
          dsimp only
          rw [hv]
          exact hok
        · intro k h
          exact hpres k (recGet?_recSet_isSome acc kv.1 k v h)
        · intro k h
          rw [show mappingKeys (kv :: rest) = (match kv.2 with
                | .simple _ _ => [kv.1]
                | .nested _ sub => sub.map (fun s => s.1)) ++ mappingKeys rest from rfl, hkv] at h
          rcases List.mem_append.mp h with h | h
          · rw [List.mem_singleton] at h
            subst h
            exact hpres kv.1 (recGet?_recSet_self_isSome acc kv.1 v)
          · exact hmem k h

/-- Dict writes at keys other than `k` never change the binding of `k`. -/
theorem foldl_recSet_not_mem (g : String × Nat × Dtype → PyVal) :
    ∀ (sub : List (String × Nat × Dtype)) (acc : PyRec) (k : String),
      (∀ s ∈ sub, s.1 ≠ k) →
      recGet? (sub.foldl (fun a s => recSet a s.1 (g s)) acc) k = recGet? acc k := by
  intro sub
  induction sub with
  | nil => intro acc k _; rfl
  | cons s rest ih =>
    intro acc k h
    rw [List.foldl_cons, ih _ k (fun x hx => h x (List.mem_cons_of_mem s hx))]
    rw [recGet?_recSet]
    rw [if_neg (fun hh => h s (List.mem_cons_self s rest) hh.symm)]

/-- With pairwise distinct keys, each key's binding after the fold is its
own entry's value. -/
theorem foldl_recSet_value (g : String × Nat × Dtype → PyVal) :
    ∀ (sub : List (String × Nat × Dtype)) (acc : PyRec),
      (sub.map (fun s => s.1)).Nodup →
      ∀ s ∈ sub, recGet? (sub.foldl (fun a s => recSet a s.1 (g s)) acc) s.1 = some (g s) := by
  intro sub
  induction sub with
  | nil => intro acc _ s hs; exact absurd hs (List.not_mem_nil s)
  | cons s0 rest ih =>
    intro acc hnd s hs
    rw [List.map_cons, List.nodup_cons] at hnd
    rcases List.mem_cons.mp hs with hs | hs
    · subst hs
      rw [List.foldl_cons]
      rw [foldl_recSet_not_mem g rest _ s.1
        (fun x hx hh => hnd.1 (hh ▸ List.mem_map_of_mem (fun t => t.1) hx))]
      rw [recGet?_recSet, if_pos rfl]
    · rw [List.foldl_cons]
      exact ih _ hnd.2 s hs


/-- Value-exact account of `_parse_metadata_block`: with pairwise distinct
field names and all existing simple-field conversions succeeding, it
returns a record holding, for every nested sub-field, exactly
`nestedFieldValue` (the sentinel on any failure) and, for every simple
field, the converted line or the sentinel when the line is absent; keys
outside the mapping are untouched. -/
theorem parseMetadataBlockAux_values (block : List String) :
    ∀ (m : Mapping) (acc : PyRec),
      (mappingKeys m).Nodup →
      simpleFieldsConvert block m = true →
      ∃ r, parseMetadataBlockAux block m acc = .ok r ∧
        (∀ k, k ∉ mappingKeys m → recGet? r k = recGet? acc k) ∧
        (∀ kv ∈ m, ∀ idx sub, kv.2 = MapVal.nested idx sub →
           ∀ s ∈ sub, recGet? r s.1 = some (nestedFieldValue block idx s.2.1 s.2.2)) ∧
        (∀ kv ∈ m, ∀ idx dt, kv.2 = MapVal.simple idx dt →
           recGet? r kv.1 = some (match block.get? idx with
             | none => PyVal.nan
             | some line => (Dtype.run dt line).getD PyVal.nan)) := by
  intro m
  induction m with
  | nil =>
    intro acc _ _
    exact ⟨acc, rfl, fun k _ => rfl,
      fun kv hkv => absurd hkv (List.not_mem_nil kv),
      fun kv hkv => absurd hkv (List.not_mem_nil kv)⟩
  | cons kv rest ih =>
    intro acc hnd hconv
    have hkeys : mappingKeys (kv :: rest) = (match kv.2 with
        | .simple _ _ => [kv.1]
        | .nested _ sub => sub.map (fun s => s.1)) ++ mappingKeys rest := rfl
    rw [hkeys, List.nodup_append] at hnd
    obtain ⟨hndhead, hndrest, hdisj⟩ := hnd
    have hconvrest : simpleFieldsConvert block rest = true := by
      simp only [simpleFieldsConvert, List.all_cons, Bool.and_eq_true] at hconv
      exact hconv.2
    have hconvhead := by
      simp only [simpleFieldsConvert, List.all_cons, Bool.and_eq_true] at hconv
      exact hconv.1
    match hkv : kv.2 with
    | .nested idx sub =>
      rw [hkv] at hndhead hdisj
      dsimp only at hndhead hdisj
      obtain ⟨r, hok, huntouched, hnested, hsimple⟩ :=
        ih (sub.foldl (fun a s => recSet a s.1 (nestedFieldValue block idx s.2.1 s.2.2)) acc)
          hndrest hconvrest
      refine ⟨r, ?_, ?_, ?_, ?_⟩
      · rw [parseMetadataBlockAux, hkv]
        dsimp only
        exact hok
      · intro k hk
        rw [hkeys, hkv] at hk
        dsimp only at hk
        rw [List.mem_append] at hk
        push_neg at hk
        rw [huntouched k hk.2]
        exact foldl_recSet_not_mem _ sub acc k
          (fun s hs hh => hk.1 (hh ▸ List.mem_map_of_mem (fun t => t.1) hs))
      · intro kv' hkv' idx' sub' hkv'2 s hs
        rcases List.mem_cons.mp hkv' with hkv' | hkv'
        · subst hkv'
          rw [hkv] at hkv'2
          obtain ⟨hidx, hsub⟩ := MapVal.nested.injEq idx sub idx' sub' ▸ hkv'2
          subst hidx
          subst hsub
          have hs1 : s.1 ∈ sub.map (fun t => t.1) := List.mem_map_of_mem (fun t => t.1) hs
          rw [huntouched s.1 (fun hmem => hdisj hs1 hmem)]
          exact foldl_recSet_value _ sub acc hndhead s hs
        · exact hnested kv' hkv' idx' sub' hkv'2 s hs
      · intro kv' hkv' idx' dt' hkv'2
        rcases List.mem_cons.mp hkv' with hkv' | hkv'
        · subst hkv'
          rw [hkv] at hkv'2
          exact absurd hkv'2 (by simp)
        · exact hsimple kv' hkv' idx' dt' hkv'2
    | .simple idx dt =>
      rw [hkv] at hndhead hdisj hconvhead
      dsimp only at hndhead hdisj hconvhead
      have hval : ∃ v, (match block.get? idx with
          | none => PyVal.nan
          | some line => (Dtype.run dt line).getD PyVal.nan) = v ∧
          parseMetadataBlockAux block (kv :: rest) acc =
            parseMetadataBlockAux block rest (recSet acc kv.1 v) := by
        match hline : block.get? idx with
        | none =>
          refine ⟨.nan, rfl, ?_⟩
          rw [parseMetadataBlockAux, hkv]
          dsimp only
          rw [hline]
        | some line =>
          rw [hline] at hconvhead
          dsimp only at hconvhead
          simp only [Option.isSome_iff_exists] at hconvhead
          obtain ⟨v, hv⟩ := hconvhead
          refine ⟨v, by dsimp only; rw [hv]; rfl, ?_⟩
          rw [parseMetadataBlockAux, hkv]
          dsimp only
          rw [hline]
          dsimp only
          rw [hv]
      obtain ⟨v, hvdef, hstep⟩ := hval
      obtain ⟨r, hok, huntouched, hnested, hsimple⟩ :=
        ih (recSet acc kv.1 v) hndrest hconvrest
      refine ⟨r, ?_, ?_, ?_, ?_⟩
      · rw [hstep]
        exact hok
      · intro k hk
        rw [hkeys, hkv] at hk
        dsimp only at hk
        rw [List.mem_append] at hk
        push_neg at hk
        rw [huntouched k hk.2, recGet?_recSet]
        rw [if_neg (fun hh => hk.1 (List.mem_singleton.mpr hh))]
      · intro kv' hkv' idx' sub' hkv'2 s hs
        rcases List.mem_cons.mp hkv' with hkv' | hkv'
        · subst hkv'
          rw [hkv] at hkv'2
          exact absurd hkv'2 (by simp)
        · exact hnested kv' hkv' idx' sub' hkv'2 s hs
      · intro kv' hkv' idx' dt' hkv'2
        rcases List.mem_cons.mp hkv' with hkv' | hkv'
        · rw [hkv'] at hkv'2 ⊢
          rw [hkv] at hkv'2
          obtain ⟨hidx, hdt⟩ := MapVal.simple.injEq idx dt idx' dt' ▸ hkv'2
          subst hidx
          subst hdt
          have hnotin : kv.1 ∉ mappingKeys rest := fun hmem =>
            hdisj (List.mem_singleton_self kv.1) hmem
          rw [huntouched kv.1 hnotin, recGet?_recSet, if_pos rfl, hvdef]
        · exact hsimple kv' hkv' idx' dt' hkv'2

/-- Invariant of the `.tlk` segmentation loop: finished groups have three
lines, the flattened result is the consumed prefix (up to the first
asterisk), and the in-progress group is appended at the end. -/
theorem splitTlkAux_invariant :
    ∀ (ls : List String) (blocks : List (List String)) (block : List String),
      (∀ b ∈ blocks, b.length = 3) → block.length ≤ 3 →
      let r := splitTlkAux ls blocks block block.length
      r.flatten = blocks.flatten ++ block ++ ls.takeWhile (fun x => x ≠ "*") ∧
      (∀ b ∈ r.dropLast, b.length = 3) ∧
      r ≠ [] := by
  intro ls
  induction ls with
  | nil =>
    intro blocks block hb hlen
    refine ⟨by simp [splitTlkAux], ?_, by simp [splitTlkAux]⟩
    intro b hbmem
    rw [show splitTlkAux [] blocks block block.length = blocks ++ [block] from rfl] at hbmem
    rw [List.dropLast_concat] at hbmem
    exact hb b hbmem
  | cons line rest ih =>
    intro blocks block hb hlen
    by_cases hstar : line = "*"
    · subst hstar
      rw [show splitTlkAux ("*" :: rest) blocks block block.length = blocks ++ [block] from by
        rw [splitTlkAux]; simp]
      refine ⟨by simp, ?_, by simp⟩
      intro b hbmem
      rw [List.dropLast_concat] at hbmem
      exact hb b hbmem
    · by_cases h3 : block.length = 3
      · have hstep : splitTlkAux (line :: rest) blocks block block.length =
            splitTlkAux rest (blocks ++ [block]) [line] 1 := by
          rw [splitTlkAux]
          simp [hstar, h3]
        rw [hstep]
        have hb' : ∀ b ∈ blocks ++ [block], b.length = 3 := by
          intro b hbmem
          rcases List.mem_append.mp hbmem with h | h
          · exact hb b h
          · rw [List.mem_singleton] at h; subst h; exact h3
        have hthis := ih (blocks ++ [block]) [line] hb' (by simp)
        rw [show ([line] : List String).length = 1 from rfl] at hthis
        obtain ⟨hflat, hdrop, hne⟩ := hthis
        refine ⟨?_, hdrop, hne⟩
        rw [hflat]
        simp [h3, List.takeWhile_cons, hstar]
      · have hstep : splitTlkAux (line :: rest) blocks block block.length =
            splitTlkAux rest blocks (block ++ [line]) (block.length + 1) := by
          rw [splitTlkAux]
          simp [hstar, h3]
        rw [hstep]
        have hlen' : (block ++ [line]).length ≤ 3 := by
          simp only [List.length_append, List.length_singleton]
          omega
        have hthis := ih blocks (block ++ [line]) hb hlen'
        rw [show (block ++ [line]).length = block.length + 1 from by simp] at hthis
        obtain ⟨hflat, hdrop, hne⟩ := hthis
        refine ⟨?_, hdrop, hne⟩
        rw [hflat]
        simp [List.takeWhile_cons, hstar]

/-- Lines after the first asterisk never influence `.tlk` segmentation. -/
theorem splitTlkAux_takeWhile :
    ∀ (ls : List String) (blocks : List (List String)) (block : List String) (c : Nat),
      splitTlkAux ls blocks block c =
        splitTlkAux (ls.takeWhile (fun x => x ≠ "*")) blocks block c := by
  intro ls
  induction ls with
  | nil => intro blocks block c; rfl
  | cons line rest ih =>
    intro blocks block c
    by_cases hstar : line = "*"
    · subst hstar
      rw [show (("*" :: rest).takeWhile (fun x => x ≠ "*")) = [] from by
        simp [List.takeWhile_cons]]
      rw [splitTlkAux]
      simp [splitTlkAux]
    · rw [show ((line :: rest).takeWhile (fun x => x ≠ "*")) =
          line :: rest.takeWhile (fun x => x ≠ "*") from by simp [List.takeWhile_cons, hstar]]
      rw [splitTlkAux, splitTlkAux]
      by_cases h3 : c == 3
      · simp [hstar, h3, ih]
      · simp [hstar, h3, ih]

/-- A leading whitespace character with an empty accumulator is skipped. -/
theorem splitWsAux_space_nil (c : Char) (cs : List Char) (h : pySpace c = true) :
    splitWsAux (c :: cs) [] = splitWsAux cs [] := by
  simp [splitWsAux, h]

/-- With a nonempty accumulator, the next emitted token is the accumulator
followed by the upcoming run of non-whitespace characters. -/
theorem splitWsAux_nonempty (cs : List Char) :
    ∀ (acc : List Char), acc ≠ [] →
      splitWsAux cs acc =
        (acc.reverse ++ cs.takeWhile (fun c => !pySpace c)) ::
          splitWsAux (cs.dropWhile (fun c => !pySpace c)) [] := by
  induction cs with
  | nil =>
    intro acc hacc
    simp [splitWsAux, hacc]
  | cons c cs ih =>
    intro acc hacc
    by_cases hsp : pySpace c = true
    · have h1 : splitWsAux (c :: cs) acc = acc.reverse :: splitWsAux cs [] := by
        simp [splitWsAux, hsp, hacc]
      rw [h1]
      have h2 : (c :: cs).takeWhile (fun c => !pySpace c) = [] := by
        simp [List.takeWhile_cons, hsp]
      have h3 : (c :: cs).dropWhile (fun c => !pySpace c) = c :: cs := by
        simp [List.dropWhile_cons, hsp]
      rw [h2, h3, splitWsAux_space_nil c cs hsp]
      simp
    · have hspf : pySpace c = false := by simp at hsp; exact hsp
      have h1 : splitWsAux (c :: cs) acc = splitWsAux cs (c :: acc) := by
        simp [splitWsAux, hspf]
      rw [h1, ih (c :: acc) (by simp)]
      have h2 : (c :: cs).takeWhile (fun c => !pySpace c) =
          c :: cs.takeWhile (fun c => !pySpace c) := by
        simp [List.takeWhile_cons, hspf]
      have h3 : (c :: cs).dropWhile (fun c => !pySpace c) =
          cs.dropWhile (fun c => !pySpace c) := by
        simp [List.dropWhile_cons, hspf]
      rw [h2, h3]
      simp

/-- Consuming the four non-whitespace characters of `"None"`. -/
theorem splitWsAux_none_start (cs : List Char) :
    splitWsAux ('N' :: 'o' :: 'n' :: 'e' :: cs) [] =
      splitWsAux cs ['e', 'n', 'o', 'N'] := rfl

/-- Projection of a flag through an if-then-else of indicator records. -/
theorem flagOf_ite (P : Prop) [Decidable P] (a b : Indicators) (f : ToggleFlag) :
    flagOf (if P then a else b) f = if P then flagOf a f else flagOf b f :=
  apply_ite (fun i => flagOf i f) P a b

/-- Applying a flag's off-code (when it is not intercepted by the label
table) overwrites that flag with 0. -/
theorem flagOf_modify_off (labelCodes : Int → Bool) (f : ToggleFlag)
    (h : labelCodes (offCodeOf f) = false) (ind : Indicators) :
    flagOf (modifyIndicatorByCode labelCodes (offCodeOf f) ind) f = .int 0 := by
  cases f <;> simp_all [modifyIndicatorByCode, offCodeOf, flagOf]

/-- A code that appends to the label accumulator, or does not toggle the
given flag, leaves that flag's value unchanged. -/
theorem flagOf_modify_untouched (labelCodes : Int → Bool) (c : Int) (f : ToggleFlag)
    (h : labelCodes c = true ∨ togglesFlag c f = false) (ind : Indicators) :
    flagOf (modifyIndicatorByCode labelCodes c ind) f = flagOf ind f := by
  by_cases hl : labelCodes c = true
  · cases f <;> simp [modifyIndicatorByCode, hl, flagOf]
  · simp only [Bool.not_eq_true] at hl
    rcases h with h | h
    · rw [h] at hl; simp at hl
    · cases f with
      | oktRotasjon =>
        simp only [togglesFlag, Bool.or_eq_false_iff, beq_eq_false_iff_ne] at h
        have e70 : (c == 70) = false := by simp [h.1]
        have e71 : (c == 71) = false := by simp [h.2]
        simp only [modifyIndicatorByCode, hl, e70, e71, Bool.false_eq_true, if_false]
        simp only [flagOf_ite]
        simp [flagOf]
      | spyling =>
        simp only [togglesFlag, Bool.or_eq_false_iff, beq_eq_false_iff_ne] at h
        have e72 : (c == 72) = false := by simp [h.1.1.1]
        have e73 : (c == 73) = false := by simp [h.1.1.2]
        have e76 : (c == 76) = false := by simp [h.1.2]
        have e77 : (c == 77) = false := by simp [h.2]
        simp only [modifyIndicatorByCode, hl, e72, e73, e76, e77, Bool.false_eq_true, if_false]
        simp only [flagOf_ite]
        simp [flagOf]
      | slag =>
        simp only [togglesFlag, Bool.or_eq_false_iff, beq_eq_false_iff_ne] at h
        have e74 : (c == 74) = false := by simp [h.1.1.1]
        have e75 : (c == 75) = false := by simp [h.1.1.2]
        have e76 : (c == 76) = false := by simp [h.1.2]
        have e77 : (c == 77) = false := by simp [h.2]
        simp only [modifyIndicatorByCode, hl, e74, e75, e76, e77, Bool.false_eq_true, if_false]
        simp only [flagOf_ite]
        simp [flagOf]
      | pumping =>
        simp only [togglesFlag, Bool.or_eq_false_iff, beq_eq_false_iff_ne] at h
        have e78 : (c == 78) = false := by simp [h.1]
        have e79 : (c == 79) = false := by simp [h.2]
        simp only [modifyIndicatorByCode, hl, e78, e79, Bool.false_eq_true, if_false]
        simp only [flagOf_ite]
        simp [flagOf]

/-- Folding further codes that never toggle the flag preserves its 0
state. -/
theorem flagOf_foldl_pres (labelCodes : Int → Bool) (f : ToggleFlag) (post : List Int)
    (h : ∀ c ∈ post, labelCodes c = true ∨ togglesFlag c f = false) :
    ∀ ind : Indicators, flagOf ind f = .int 0 →
      flagOf (post.foldl (fun i c => modifyIndicatorByCode labelCodes c i) ind) f = .int 0 := by
  induction post with
  | nil => intro ind hind; exact hind
  | cons c rest ih =>
    intro ind hind
    rw [List.foldl_cons]
    exact ih (fun x hx => h x (List.mem_cons_of_mem c hx)) _
      (by rw [flagOf_modify_untouched labelCodes c f (h c (List.mem_cons_self c rest)) ind]; exact hind)

/-- A value comparing equal to 7 does not compare equal to 25. -/
theorem pyEqInt_7_not_25 (sv : PyVal) (h : pyEqInt sv 7 = true) : pyEqInt sv 25 = false := by
  cases sv with
  | nan => simp [pyEqInt]
  | str s => simp [pyEqInt]
  | date y m d => simp [pyEqInt]
  | int n =>
    simp only [pyEqInt, beq_iff_eq] at h
    simp only [pyEqInt, beq_eq_false_iff_ne]
    omega
  | float q =>
    simp only [pyEqInt, beq_iff_eq] at h
    simp only [pyEqInt, beq_eq_false_iff_ne]
    rw [h]
    norm_num

/-- The scan body on a CPT data block merges the trailing metadata block
into the entry. -/
theorem sndScanBody_cpt (M : SndMappings) (bc tb : List String)
    (md cptMd : PyRec) (data : List PyRec) (sv : PyVal)
    (hparse : parseUnknownDataBlock M bc = .ok (md, data))
    (hsv : recGet? md "survey_type_code" = some sv)
    (h7 : pyEqInt sv 7 = true)
    (htb : parseMetadataBlock tb M.cptUnknownBlock = .ok cptMd) :
    sndScanBody M bc (some tb) = .ok
      (.cptEntry ⟨recMerge (recSet md "type" (.str "cpt")) cptMd, data⟩) := by
  rw [sndScanBody, hparse]
  dsimp only [Bind.bind, Except.bind, pure, Except.pure]
  rw [hsv]
  dsimp only
  rw [surveyCodeToText, pyEqInt_7_not_25 sv h7]
  simp only [Bool.false_eq_true, if_false, h7, if_true]
  dsimp only [Bind.bind, Except.bind, pure, Except.pure]
  rw [htb]

/-- A CPT entry breaks the scan loop: whatever blocks follow the trailing
metadata block are never examined. -/
theorem sndScan_cpt_step (M : SndMappings) (bc tb : List String) (rest : List (List String))
    (dbs : List DataBlockEntry) (errs : List String) (entry : DataBlockEntry)
    (hdb : isDataBlock bc = .ok true)
    (hbody : sndScanBody M bc (some tb) = .ok (.cptEntry entry)) :
    sndScan M (bc :: tb :: rest) dbs errs = .ok (dbs ++ [entry], errs) := by
  rw [sndScan, hdb]
  dsimp only [Bind.bind, Except.bind, pure, Except.pure]
  rw [if_pos rfl]
  rw [show ((tb :: rest).head?) = some tb from rfl]
  rw [hbody]

/-! ## Claim theorems -/

/-- C2: (a) a sound file with fewer than three blocks yields a non-empty
error list (the structural message) and an empty series list; (b) on a
well-formed file whose blocks are three metadata blocks, a CPT data block,
and a trailing metadata block, the trailing block is consumed as trailing
metadata and merged into the single series entry, and — for every list of
further blocks `rest` — the result is the same: nothing after the trailing
block is scanned. -/
theorem C2_snd_orchestrator :
    (∀ (M : SndMappings) (lines : List String),
      (getBlocks lines).length < 3 →
      parseSndFile M lines = .ok
        ⟨"snd",
         recMerge (recMerge (initializeEmptyMapping M.firstBlock)
           (initializeEmptyMapping M.secondBlock)) (initializeEmptyMapping M.thirdBlock),
         [], ["File contains less than 3 blocks. Cannot parse"]⟩) ∧
    (∀ (M : SndMappings) (lines m1 m2 m3 bc tb : List String)
       (rest : List (List String)) (f1 f2 f3 md cptMd : PyRec) (data : List PyRec) (sv : PyVal),
      getBlocks lines = [m1, m2, m3, bc, tb] ++ rest →
      parseMetadataBlock m1 M.firstBlock = .ok f1 →
      parseMetadataBlock m2 M.secondBlock = .ok f2 →
      isDataBlock m3 = .ok false →
      parseMetadataBlock m3 M.thirdBlock = .ok f3 →
      isDataBlock bc = .ok true →
      parseUnknownDataBlock M bc = .ok (md, data) →
      recGet? md "survey_type_code" = some sv →
      pyEqInt sv 7 = true →
      parseMetadataBlock tb M.cptUnknownBlock = .ok cptMd →
      parseSndFile M lines = .ok
        ⟨"snd", recMerge (recMerge f1 f2) f3,
         [⟨recMerge (recSet md "type" (.str "cpt")) cptMd, data⟩], []⟩) := by
  constructor
  · intro M lines hlt
    rw [parseSndFile]
    simp only [hlt, if_true]
    rfl
  · intro M lines m1 m2 m3 bc tb rest f1 f2 f3 md cptMd data sv
      hblocks hf1 hf2 hm3 hf3 hbc hparse hsv h7 htb
    rw [parseSndFile, hblocks]
    have hnotlt : ¬(([m1, m2, m3, bc, tb] ++ rest).length < 3) := by
      simp only [List.length_append, List.length_cons]
      omega
    rw [if_neg hnotlt]
    rw [show (([m1, m2, m3, bc, tb] ++ rest).getD 0 []) = m1 from rfl]
    rw [show (([m1, m2, m3, bc, tb] ++ rest).getD 1 []) = m2 from rfl]
    rw [show (([m1, m2, m3, bc, tb] ++ rest).getD 2 []) = m3 from rfl]
    rw [hf1]
    dsimp only [Bind.bind, Except.bind, pure, Except.pure]
    rw [hf2]
    rw [hm3]
    dsimp only [Bind.bind, Except.bind, pure, Except.pure]
    simp only [Bool.not_false, if_true]
    rw [hf3]
    dsimp only [Bind.bind, Except.bind, pure, Except.pure]
    rw [show (([m1, m2, m3, bc, tb] ++ rest).drop 3) = bc :: tb :: rest from rfl]
    rw [sndScan_cpt_step M bc tb rest [] [] _ hbc
      (sndScanBody_cpt M bc tb md cptMd data sv hparse hsv h7 htb)]
    rfl

/-- C2, witness: a concrete sound file — three metadata blocks, a CPT data
block (`"7 01.02.2020"`), and a trailing guid block — decodes to one merged
series entry with no errors, both directly and through the claim
theorem. -/
theorem C2_witness :
    getBlocks ["m1", "*", "m2", "*", "x", "*", "7 01.02.2020", "meta", "*", "xyz"] =
      [["m1"], ["m2"], ["x"], ["7 01.02.2020", "meta"], ["xyz"]] ∧
    parseSndFile sndWitnessMappings
        ["m1", "*", "m2", "*", "x", "*", "7 01.02.2020", "meta", "*", "xyz"] =
      .ok ⟨"snd", [],
        [⟨[("survey_type_code", PyVal.int 7), ("type", PyVal.str "cpt"),
           ("guid", PyVal.str "xyz")], []⟩], []⟩ ∧
    parseSndFile sndWitnessMappings ["a"] = .ok
      ⟨"snd", [], [], ["File contains less than 3 blocks. Cannot parse"]⟩ :=
  ⟨by decide,
   by
    have h := C2_snd_orchestrator.2 sndWitnessMappings
      ["m1", "*", "m2", "*", "x", "*", "7 01.02.2020", "meta", "*", "xyz"]
      ["m1"] ["m2"] ["x"] ["7 01.02.2020", "meta"] ["xyz"] []
      [] [] [] [("survey_type_code", PyVal.int 7)] [("guid", PyVal.str "xyz")] []
      (PyVal.int 7)
      (by decide) (by decide) (by decide) (by decide) (by decide) (by decide)
      (by decide) (by decide) (by decide) (by decide)
    exact h,
   by
    have h := C2_snd_orchestrator.1 sndWitnessMappings ["a"] (by decide)
    exact h⟩

/-- C3, counterexample: the claim says a failed type conversion always
degrades to the sentinel and never aborts the block, but a non-nested
field whose `int` conversion fails raises `ValueError` out of
`_parse_metadata_block` (only `IndexError` is caught on that path). -/
theorem C3_counterexample :
    parseMetadataBlock ["abc"] [("a", MapVal.simple 0 Dtype.toInt)] =
      .error (.valueError "could not convert string to mapped dtype") := by
  decide

/-- C3, amended: out-of-range indices and failed nested conversions are
set to the missing-value sentinel for that one field only, and extraction
still produces the right value for every other mapped field; only a failed
conversion of a non-nested whole-line field raises.  Concretely: (1) a
nested field whose line index is out of range is `nan`; (2) so is one
whose token index is out of range; (3) so is one whose conversion fails;
(4) under distinct field names, whenever every existing simple-field line
converts, extraction succeeds and binds every nested sub-field to exactly
`nestedFieldValue` (its converted token, or the sentinel on any of the
three failures) and every simple field to its converted line or the
sentinel when its line is absent. -/
theorem C3_amended :
    (∀ (block : List String) (idx tokIdx : Nat) (dt : Dtype),
      block.get? idx = none → nestedFieldValue block idx tokIdx dt = .nan) ∧
    (∀ (block : List String) (idx tokIdx : Nat) (dt : Dtype) (line : String),
      block.get? idx = some line → (splitWs line).get? tokIdx = none →
      nestedFieldValue block idx tokIdx dt = .nan) ∧
    (∀ (block : List String) (idx tokIdx : Nat) (dt : Dtype) (line tok : String),
      block.get? idx = some line → (splitWs line).get? tokIdx = some tok →
      Dtype.run dt tok = none → nestedFieldValue block idx tokIdx dt = .nan) ∧
    (∀ (m : Mapping) (block : List String),
      (mappingKeys m).Nodup →
      simpleFieldsConvert block m = true →
      (parseMetadataBlock block m).isOk = true ∧
      (∀ kv ∈ m, ∀ idx sub, kv.2 = MapVal.nested idx sub →
         ∀ s ∈ sub, parsedField block m s.1 = some (nestedFieldValue block idx s.2.1 s.2.2)) ∧
      (∀ kv ∈ m, ∀ idx dt, kv.2 = MapVal.simple idx dt →
         parsedField block m kv.1 = some (match block.get? idx with
           | none => PyVal.nan
           | some line => (Dtype.run dt line).getD PyVal.nan))) := by
  refine ⟨?_, ?_, ?_, ?_⟩
  · intro block idx tokIdx dt h
    unfold nestedFieldValue
    rw [h]
  · intro block idx tokIdx dt line h1 h2
    unfold nestedFieldValue
    rw [h1]
    dsimp only
    rw [h2]
  · intro block idx tokIdx dt line tok h1 h2 h3
    unfold nestedFieldValue
    rw [h1]
    dsimp only
    rw [h2]
    dsimp only
    rw [h3]
    rfl
  · intro m block hnd hconv
    obtain ⟨r, hok, _, hnested, hsimple⟩ := parseMetadataBlockAux_values block m [] hnd hconv
    have hpf : ∀ k, parsedField block m k = recGet? r k := by
      intro k
      rw [parsedField, parseMetadataBlock, hok]
      rfl
    refine ⟨by rw [parseMetadataBlock, hok]; rfl, ?_, ?_⟩
    · intro kv hkv idx sub hkv2 s hs
      rw [hpf]
      exact hnested kv hkv idx sub hkv2 s hs
    · intro kv hkv idx dt hkv2
      rw [hpf]
      exact hsimple kv hkv idx dt hkv2

/-- C3, witness: a mapping with an in-range simple field, an out-of-range
nested group, and an out-of-range simple field, on a one-line block: the
two failing fields come back as the `nan` sentinel and the good field as
its value. -/
theorem C3_witness :
    (mappingKeys
      [("a", MapVal.simple 0 Dtype.toStr),
       ("grp", MapVal.nested 5 [("b", 0, Dtype.toInt)]),
       ("c", MapVal.simple 9 Dtype.toInt)]).Nodup ∧
    simpleFieldsConvert ["hello"]
      [("a", MapVal.simple 0 Dtype.toStr),
       ("grp", MapVal.nested 5 [("b", 0, Dtype.toInt)]),
       ("c", MapVal.simple 9 Dtype.toInt)] = true ∧
    nestedFieldValue ["hello"] 5 0 Dtype.toInt = PyVal.nan ∧
    parsedField ["hello"]
      [("a", MapVal.simple 0 Dtype.toStr),
       ("grp", MapVal.nested 5 [("b", 0, Dtype.toInt)]),
       ("c", MapVal.simple 9 Dtype.toInt)] "a" = some (PyVal.str "hello") ∧
    parsedField ["hello"]
      [("a", MapVal.simple 0 Dtype.toStr),
       ("grp", MapVal.nested 5 [("b", 0, Dtype.toInt)]),
       ("c", MapVal.simple 9 Dtype.toInt)] "b" = some PyVal.nan ∧
    parsedField ["hello"]
      [("a", MapVal.simple 0 Dtype.toStr),
       ("grp", MapVal.nested 5 [("b", 0, Dtype.toInt)]),
       ("c", MapVal.simple 9 Dtype.toInt)] "c" = some PyVal.nan :=
  ⟨by decide, by decide,
   C3_amended.1 ["hello"] 5 0 Dtype.toInt (by decide),
   by
    have h := (C3_amended.2.2.2
      [("a", MapVal.simple 0 Dtype.toStr),
       ("grp", MapVal.nested 5 [("b", 0, Dtype.toInt)]),
       ("c", MapVal.simple 9 Dtype.toInt)] ["hello"] (by decide) (by decide)).2.2
      ("a", MapVal.simple 0 Dtype.toStr) (by decide) 0 Dtype.toStr rfl
    exact h,
   by
    have h := (C3_amended.2.2.2
      [("a", MapVal.simple 0 Dtype.toStr),
       ("grp", MapVal.nested 5 [("b", 0, Dtype.toInt)]),
       ("c", MapVal.simple 9 Dtype.toInt)] ["hello"] (by decide) (by decide)).2.1
      ("grp", MapVal.nested 5 [("b", 0, Dtype.toInt)]) (by decide) 5
      [("b", 0, Dtype.toInt)] rfl ("b", 0, Dtype.toInt) (by decide)
    exact h,
   by
    have h := (C3_amended.2.2.2
      [("a", MapVal.simple 0 Dtype.toStr),
       ("grp", MapVal.nested 5 [("b", 0, Dtype.toInt)]),
       ("c", MapVal.simple 9 Dtype.toInt)] ["hello"] (by decide) (by decide)).2.2
      ("c", MapVal.simple 9 Dtype.toInt) (by decide) 9 Dtype.toInt rfl
    exact h⟩

/-- C7: the symbol decoder on `-5` (binary `101`) emits the negative-table
labels at bit positions 0 and 2 in ascending order, which join to
`"Leire Grus"`; on `23` it emits the positive-table labels at positions 2
and 3 in digit order; on `0` it emits no labels; and the negative table has
13 entries. -/
theorem C7_symbol_decoder :
    labelFromSymbol (-5) = .ok [.str "Leire", .str "Grus"] ∧
    symbolLabelsNeg.get? 0 = some (.str "Leire") ∧
    symbolLabelsNeg.get? 2 = some (.str "Grus") ∧
    symbolLabelsNeg.length = 13 ∧
    pyJoinSpace [.str "Leire", .str "Grus"] = .ok "Leire Grus" ∧
    labelFromSymbol 23 = .ok [.str "Silt", .str "Sand"] ∧
    symbolLabelsPos.get? 2 = some (.str "Silt") ∧
    symbolLabelsPos.get? 3 = some (.str "Sand") ∧
    labelFromSymbol 0 = .ok [] := by
  decide

/-- C8: on a two-row input whose first row's symbol decodes to no labels,
`_extract_and_add_symbol_text` leaves that row's `symbol_soiltype` as the
empty string — the `nan` patch sits after the loop and reaches only the
final row, as the one-row input shows. -/
theorem C8_code_behavior :
    extractAndAddSymbolText [[("symbol", .int 0)], [("symbol", .int 1)]] =
      .ok [[("symbol", .int 0), ("symbol_soiltype", .str "")],
           [("symbol", .int 1), ("symbol_soiltype", .str "Leire")]] ∧
    extractAndAddSymbolText [[("symbol", .int 0)]] =
      .ok [[("symbol", .int 0), ("symbol_soiltype", .nan)]] := by
  decide

/-- C5, counterexample: the claim says the partial group accumulated when
the asterisk is reached is discarded, but the source appends it after the
loop: on `["a","b","c","d","*"]` the partial group `["d"]` appears as the
final returned block. -/
theorem C5_counterexample :
    splitTlkToBlocks ["a", "b", "c", "d", "*"] = [["a", "b", "c"], ["d"]] ∧
    ["d"] ∈ splitTlkToBlocks ["a", "b", "c", "d", "*"] := by
  decide

/-- C5, amended: the segmenter accumulates lines into groups of exactly
three; an asterisk line stops consumption of further lines, and the group
accumulated at that point — partial or even empty — is appended as the
final block rather than discarded: every block but the last has exactly
three lines and the blocks flatten to the lines before the first
asterisk. -/
theorem C5_amended (lines : List String) :
    splitTlkToBlocks lines = splitTlkToBlocks (lines.takeWhile (fun x => x ≠ "*")) ∧
    (splitTlkToBlocks lines).flatten = lines.takeWhile (fun x => x ≠ "*") ∧
    (∀ b ∈ (splitTlkToBlocks lines).dropLast, b.length = 3) ∧
    splitTlkToBlocks lines ≠ [] := by
  have hinv := splitTlkAux_invariant lines [] [] (by intro b hb; simp at hb) (by simp)
  obtain ⟨hflat, hdrop, hne⟩ := hinv
  refine ⟨?_, ?_, hdrop, hne⟩
  · rw [splitTlkToBlocks, splitTlkToBlocks]
    exact splitTlkAux_takeWhile lines [] [] 0
  · simpa using hflat

/-- C5, witness: the amended characterization instantiated on a file with
one full group, a trailing partial group, and post-asterisk content. -/
theorem C5_witness :
    splitTlkToBlocks ["a", "b", "c", "d", "*", "e"] =
      splitTlkToBlocks ["a", "b", "c", "d"] ∧
    (splitTlkToBlocks ["a", "b", "c", "d", "*", "e"]).flatten = ["a", "b", "c", "d"] ∧
    (["a", "b", "c"] : List String).length = 3 :=
  ⟨by
    have h := (C5_amended ["a", "b", "c", "d", "*", "e"]).1
    exact h,
   by
    have h := (C5_amended ["a", "b", "c", "d", "*", "e"]).2.1
    exact h,
   (C5_amended ["a", "b", "c", "d", "*", "e"]).2.2.1 ["a", "b", "c"] (by decide)⟩

/-- C6, counterexample: the claim says a synthetic empty leading token is
inserted so that the remaining fields shift by one token offset, but the
source prepends the string `"None"` with no separator: on a first line with
no leading whitespace it fuses with the first token, leaving the token
count — and hence every token offset — unchanged. -/
theorem C6_counterexample :
    isUnknownMaterial ["1.5 2.5 Annet"] = .ok true ∧
    addEmptyValueAsMaterialText1 ["1.5 2.5 Annet"] = ["None1.5 2.5 Annet"] ∧
    splitWs "None1.5 2.5 Annet" = ["None1.5", "2.5", "Annet"] ∧
    (splitWs "None1.5 2.5 Annet").length = (splitWs "1.5 2.5 Annet").length := by
  decide

/-- C6, amended: on an unknown-material block the orchestrator applies the
mapping to the block whose first line is `"None" + line` (no separator);
this inserts `"None"` as a new leading token (shifting offsets by one)
exactly when the original first line starts with whitespace, and otherwise
fuses `"None"` onto the first token, leaving all offsets unchanged. -/
theorem C6_amended (m : Mapping) (l : String) (ls : List String)
    (h : isUnknownMaterial (l :: ls) = .ok true) :
    tlkParseBlock m (l :: ls) = parseMetadataBlock (("None" ++ l) :: ls) m ∧
    (headIsSpace l = true → splitWs ("None" ++ l) = "None" :: splitWs l) ∧
    (headIsSpace l = false →
      splitWs ("None" ++ l) =
        (match splitWs l with
         | [] => ["None"]
         | t :: ts => ("None" ++ t) :: ts)) := by
  have hl : ("None" ++ l).toList = 'N' :: 'o' :: 'n' :: 'e' :: l.toList := by
    simp
  refine ⟨?_, ?_, ?_⟩
  · rw [show tlkParseBlock m (l :: ls) = (do
        let isUnknown ← isUnknownMaterial (l :: ls)
        parseMetadataBlock (if isUnknown then addEmptyValueAsMaterialText1 (l :: ls) else l :: ls) m)
        from rfl, h]
    rfl
  · intro hsp
    cases hlt : l.toList with
    | nil => rw [headIsSpace, hlt] at hsp; simp at hsp
    | cons c cs =>
      rw [headIsSpace, hlt] at hsp
      dsimp only at hsp
      rw [splitWs, hl, hlt, splitWsAux_none_start]
      have h1 : splitWsAux (c :: cs) ['e', 'n', 'o', 'N'] =
          (['e', 'n', 'o', 'N'] : List Char).reverse :: splitWsAux cs [] := by
        simp [splitWsAux, hsp]
      rw [h1]
      rw [splitWs, hlt, splitWsAux_space_nil c cs hsp]
      rfl
  · intro hsp
    cases hlt : l.toList with
    | nil =>
      exfalso
      have hempty : splitWs l = [] := by rw [splitWs, hlt]; rfl
      rw [show isUnknownMaterial (l :: ls) = (match (splitWs l).getLast? with
            | none => throw .indexError
            | some t => pure (t == "Annet")) from rfl, hempty] at h
      simp at h
    | cons c cs =>
      rw [headIsSpace, hlt] at hsp
      dsimp only at hsp
      rw [splitWs, hl, hlt, splitWsAux_none_start]
      have h1 : splitWsAux (c :: cs) ['e', 'n', 'o', 'N'] =
          splitWsAux cs (c :: ['e', 'n', 'o', 'N']) := by
        simp [splitWsAux, hsp]
      rw [h1, splitWsAux_nonempty cs (c :: ['e', 'n', 'o', 'N']) (by simp)]
      have h2 : splitWs l = (String.mk (c :: cs.takeWhile (fun c => !pySpace c))) ::
          (splitWsAux (cs.dropWhile (fun c => !pySpace c)) []).map String.mk := by
        rw [splitWs, hlt]
        have h3 : splitWsAux (c :: cs) [] = splitWsAux cs [c] := by
          simp [splitWsAux, hsp]
        rw [h3, splitWsAux_nonempty cs [c] (by simp)]
        rfl
      rw [h2]
      rfl

/-- C6, witness: the amended statement on a concrete unknown-material block
whose first line has no leading whitespace. -/
theorem C6_witness :
    isUnknownMaterial ["1.5 2.5 Annet", "x", "y"] = .ok true ∧
    tlkParseBlock [] ["1.5 2.5 Annet", "x", "y"] =
      parseMetadataBlock [("None" ++ "1.5 2.5 Annet"), "x", "y"] [] ∧
    splitWs ("None" ++ "1.5 2.5 Annet") = ["None1.5", "2.5", "Annet"] :=
  ⟨by decide,
   (C6_amended [] "1.5 2.5 Annet" ["x", "y"] (by decide)).1,
   by
    have hm := (C6_amended [] "1.5 2.5 Annet" ["x", "y"] (by decide)).2.2 (by decide)
    exact hm⟩

/-- C4: a block classifies as a data block exactly when its first line has
two whitespace tokens, the first all-digits with value in the known survey
code set, and the second either parses under the date fallback chain or —
the exception path — is itself all digits; `"7 01.02.2020"` classifies,
`"99 xyz"` does not. -/
theorem C4_dispatcher :
    (∀ (l : String) (rest : List String),
      isDataBlock (l :: rest) = .ok true ↔
        ((splitWs l).length = 2 ∧
         pyIsDigitStr ((splitWs l).getD 0 "") = true ∧
         knownSurveyCodes.contains (digitsVal ((splitWs l).getD 0 "").toList) = true ∧
         ((tryParseDatetime ((splitWs l).getD 1 "")).isSome = true ∨
          pyIsDigitStr ((splitWs l).getD 1 "") = true))) ∧
    isDataBlock ["7 01.02.2020"] = .ok true ∧
    isDataBlock ["99 xyz"] = .ok false := by
  refine ⟨?_, by decide, by decide⟩
  intro l rest
  have hred : isDataBlock (l :: rest) = .ok (isDataBlockLine l) := rfl
  have hinj : (Except.ok (isDataBlockLine l) : Except PyErr Bool) = .ok true ↔
      isDataBlockLine l = true := by
    constructor
    · intro h; exact Except.ok.inj h
    · intro h; rw [h]
  rw [hred, hinj]
  unfold isDataBlockLine
  dsimp only
  cases hlen : ((splitWs l).length != 2) <;>
    cases hd1 : pyIsDigitStr ((splitWs l).getD 0 "") <;>
      cases hd2 : knownSurveyCodes.contains (digitsVal ((splitWs l).getD 0 "").toList) <;>
        cases htp : tryParseDatetime ((splitWs l).getD 1 "") <;>
          simp_all [bne_iff_ne]

/-- C9: in the comment-code converter, flags are overwritten rather than
OR-accumulated: whenever a row's comment yields a recognized code sequence
whose last code affecting a flag is that flag's off-code (in particular an
on-code followed by the matching off-code), the converted row carries the
flag in the off state (0).  The geosuite code tables come from the missing
`mappings` module, so the label-code set and the token recognizer are
universally quantified; the off-code is assumed not to be intercepted by
the label table, as the spec describes label codes as distinct from the
toggle codes. -/
theorem C9_last_wins (labelCodes : Int → Bool) (recognize : String → Option Int)
    (row : PyRec) (comment : String) (pre post : List Int) (f : ToggleFlag)
    (hcomment : recGet? row "kommentar" = some (.str comment))
    (hcodes : recognizedCodes recognize comment = pre ++ offCodeOf f :: post)
    (hpost : ∀ c ∈ post, labelCodes c = true ∨ togglesFlag c f = false)
    (hoff : labelCodes (offCodeOf f) = false) :
    convertedFlag labelCodes recognize row f = some (.int 0) := by
  have hind : flagOf (post.foldl (fun i c => modifyIndicatorByCode labelCodes c i)
      (modifyIndicatorByCode labelCodes (offCodeOf f)
        (pre.foldl (fun i c => modifyIndicatorByCode labelCodes c i) initIndicators))) f =
      .int 0 :=
    flagOf_foldl_pres labelCodes f post hpost _
      (flagOf_modify_off labelCodes f hoff _)
  rw [convertedFlag, convertRow, hcomment]
  show recGet? (convertRowCore labelCodes recognize (.str comment) row) (flagName f) =
    some (.int 0)
  rw [show convertRowCore labelCodes recognize (.str comment) row =
      (let indicators := (recognizedCodes recognize comment).foldl
          (fun ind c => modifyIndicatorByCode labelCodes c ind) initIndicators
       recMerge row
        [("okt_rotasjon", indicators.oktRotasjon), ("spyling", indicators.spyling),
         ("slag", indicators.slag), ("pumping", indicators.pumping),
         ("comment_label",
          (match indicators.commentLabel with
           | [] => PyVal.nan
           | c :: cs => PyVal.int (cs.foldl max c)))]) from rfl]
  rw [hcodes]
  cases f <;>
    (simp only [flagName, flagOf] at hind ⊢
     simp [recMerge, recGet?_recSet, hind])

/-- C9, witness: the comment `"70 71"` (increased-rotation on, then off)
under an empty label table and a recognizer for those two tokens ends with
`okt_rotasjon = 0`. -/
theorem C9_witness :
    recognizedCodes witnessRecognize "70 71" = [70, 71] ∧
    offCodeOf ToggleFlag.oktRotasjon = 71 ∧
    convertedFlag (fun _ => false) witnessRecognize
      [("kommentar", PyVal.str "70 71")] ToggleFlag.oktRotasjon = some (.int 0) :=
  ⟨by decide, rfl,
   C9_last_wins (fun _ => false) witnessRecognize [("kommentar", PyVal.str "70 71")] "70 71"
     [70] [] ToggleFlag.oktRotasjon (by decide) (by decide)
     (by intro c hc; exact absurd hc (List.not_mem_nil c)) rfl⟩

/-- C1, counterexample: on an input whose segmentation yields zero blocks,
`parse_prv_file` indexes `blocks[0]` before any length check and the
`IndexError` propagates to the caller. -/
theorem C1_counterexample :
    parsePrvFile ⟨[], []⟩ [] = .error .indexError := by
  decide

/-- C1, amended: `parse_tlk_file` always returns a result dictionary;
`parse_snd_file` returns a result dictionary (partial metadata plus the
structural error) for every input with fewer than three blocks; and
`parse_prv_file` — which raises `IndexError` on zero-block input — returns
zero data rows plus an error-list entry for every input whose segmentation
yields exactly one block and whose metadata-block extraction raises no
conversion error. -/
theorem C1_amended :
    (∀ (mapping : Mapping) (lines : List String),
      (parseTlkFile mapping lines).isOk = true) ∧
    (∀ (M : SndMappings) (lines : List String),
      (getBlocks lines).length < 3 →
      parseSndFile M lines = .ok
        ⟨"snd",
         recMerge (recMerge (initializeEmptyMapping M.firstBlock)
           (initializeEmptyMapping M.secondBlock)) (initializeEmptyMapping M.thirdBlock),
         [], ["File contains less than 3 blocks. Cannot parse"]⟩) ∧
    (∀ (M : PrvMappings) (lines : List String) (b0 : List String) (md : PyRec),
      getBlocks lines = [b0] →
      parseMetadataBlock b0 M.prvMetadata = .ok md →
      parsePrvFile M lines = .ok
        ⟨"prv", md, [], ["PRV contains less than 2 blocks. Cannot parse"]⟩) := by
  refine ⟨?_, ?_, ?_⟩
  · intro mapping lines
    rw [parseTlkFile]
    by_cases hemp : lines.isEmpty <;> simp [hemp] <;> rfl
  · intro M lines hlt
    rw [parseSndFile]
    simp only [hlt, if_true]
    rfl
  · intro M lines b0 md hblocks hmd
    rw [parsePrvFile, hblocks]
    rw [show ([b0].get? 0) = some b0 from rfl]
    dsimp only [Bind.bind, Except.bind, pure, Except.pure]
    rw [hmd]
    rfl

/-- C1, witness: the three amended conjuncts at concrete inputs — a
one-line interpretation file, a one-block sound file, and a one-block
auxiliary file. -/
theorem C1_witness :
    (parseTlkFile [] ["x"]).isOk = true ∧
    parseSndFile sndWitnessMappings ["a"] = .ok
      ⟨"snd",
       recMerge (recMerge (initializeEmptyMapping sndWitnessMappings.firstBlock)
         (initializeEmptyMapping sndWitnessMappings.secondBlock))
         (initializeEmptyMapping sndWitnessMappings.thirdBlock),
       [], ["File contains less than 3 blocks. Cannot parse"]⟩ ∧
    parsePrvFile (PrvMappings.mk [("x", MapVal.simple 0 Dtype.toStr)] []) ["hello"] =
      .ok ⟨"prv", [("x", PyVal.str "hello")], [],
        ["PRV contains less than 2 blocks. Cannot parse"]⟩ :=
  ⟨C1_amended.1 [] ["x"],
   C1_amended.2.1 sndWitnessMappings ["a"] (by decide),
   C1_amended.2.2 (PrvMappings.mk [("x", MapVal.simple 0 Dtype.toStr)] []) ["hello"]
     ["hello"] [("x", PyVal.str "hello")] (by decide) (by decide)⟩

/-! ## Heap lemmas for the mutation claims -/

theorem Heap.get_alloc_lt (h : Heap) (v : List String) (r' : Nat)
    (hr : r' < h.cells.length) : (h.alloc v).1.get r' = h.get r' := by
  simp only [Heap.alloc, Heap.get]
  rw [List.getD_append _ _ _ _ hr]

theorem Heap.length_alloc (h : Heap) (v : List String) :
    (h.alloc v).1.cells.length = h.cells.length + 1 := by
  simp [Heap.alloc]

theorem Heap.get_set_ne (h : Heap) (r r' : Nat) (v : List String) (hne : r' ≠ r) :
    (h.set r v).get r' = h.get r' := by
  simp only [Heap.set, Heap.get]
  rw [List.getD_eq_getElem?_getD, List.getD_eq_getElem?_getD]
  rw [List.getElem?_set_ne (fun hh => hne hh.symm)]

theorem Heap.length_set (h : Heap) (r : Nat) (v : List String) :
    (h.set r v).cells.length = h.cells.length := by
  simp [Heap.set]

theorem Heap.get_set_self (h : Heap) (r : Nat) (v : List String) (hr : r < h.cells.length) :
    (h.set r v).get r = v := by
  simp only [Heap.set, Heap.get]
  rw [List.getD_eq_getElem?_getD, List.getElem?_set_self' ]
  simp [hr]


theorem allocList_spec :
    ∀ (vs : List (List String)) (h : Heap),
      h.cells.length ≤ (allocList h vs).1.cells.length ∧
      (∀ r' < h.cells.length, (allocList h vs).1.get r' = h.get r') ∧
      (allocList h vs).2.map (allocList h vs).1.get = vs ∧
      (∀ r ∈ (allocList h vs).2, r < (allocList h vs).1.cells.length) := by
  intro vs
  induction vs with
  | nil =>
    intro h
    exact ⟨Nat.le_refl _, fun r' _ => rfl, rfl, fun r hr => absurd hr (List.not_mem_nil r)⟩
  | cons v rest ih =>
    intro h
    obtain ⟨hlen, hpres, hmap, hbound⟩ := ih (h.alloc v).1
    have hstep : allocList h (v :: rest) =
        ((allocList (h.alloc v).1 rest).1, (h.alloc v).2 :: (allocList (h.alloc v).1 rest).2) := rfl
    rw [hstep]
    dsimp only
    have hlen1 := Heap.length_alloc h v
    refine ⟨by omega, ?_, ?_, ?_⟩
    · intro r' hr'
      rw [hpres r' (by omega), Heap.get_alloc_lt h v r' hr']
    · simp only [List.map_cons, List.cons.injEq]
      rw [show (h.alloc v).2 = h.cells.length from rfl]
      refine ⟨?_, hmap⟩
      rw [hpres h.cells.length (by omega)]
      rw [show (h.alloc v).1.get h.cells.length = v from by
        simp [Heap.alloc, Heap.get, List.getD_eq_getElem?_getD]]
    · intro r hr
      rcases List.mem_cons.mp hr with hr | hr
      · subst hr
        have : (h.alloc v).2 = h.cells.length := rfl
        omega
      · exact hbound r hr


theorem addEmptyH_spec (h : Heap) (r : Nat) :
    h.cells.length + 1 = (addEmptyValueAsMaterialText1H h r).1.cells.length ∧
    (∀ r' < h.cells.length, (addEmptyValueAsMaterialText1H h r).1.get r' = h.get r') ∧
    (addEmptyValueAsMaterialText1H h r).1.get (addEmptyValueAsMaterialText1H h r).2 =
      addEmptyValueAsMaterialText1 (h.get r) := by
  have hget : (h.alloc (h.get r)).1.get (h.alloc (h.get r)).2 = h.get r := by
    simp [Heap.alloc, Heap.get, List.getD_eq_getElem?_getD]
  refine ⟨?_, ?_, ?_⟩
  · rw [show (addEmptyValueAsMaterialText1H h r).1 =
        (h.alloc (h.get r)).1.set (h.alloc (h.get r)).2
          (match (h.alloc (h.get r)).1.get (h.alloc (h.get r)).2 with
           | [] => []
           | l :: ls => ("None" ++ l) :: ls) from rfl]
    rw [Heap.length_set, Heap.length_alloc]
  · intro r' hr'
    rw [show (addEmptyValueAsMaterialText1H h r).1 =
        (h.alloc (h.get r)).1.set (h.alloc (h.get r)).2
          (match (h.alloc (h.get r)).1.get (h.alloc (h.get r)).2 with
           | [] => []
           | l :: ls => ("None" ++ l) :: ls) from rfl]
    rw [Heap.get_set_ne _ _ _ _ (show r' ≠ (h.alloc (h.get r)).2 from by
      rw [show (h.alloc (h.get r)).2 = h.cells.length from rfl]; omega)]
    exact Heap.get_alloc_lt h _ r' hr'
  · rw [show (addEmptyValueAsMaterialText1H h r).1 =
        (h.alloc (h.get r)).1.set (h.alloc (h.get r)).2
          (match (h.alloc (h.get r)).1.get (h.alloc (h.get r)).2 with
           | [] => []
           | l :: ls => ("None" ++ l) :: ls) from rfl,
       show (addEmptyValueAsMaterialText1H h r).2 = (h.alloc (h.get r)).2 from rfl]
    rw [Heap.get_set_self _ _ _ (by
      rw [Heap.length_alloc]
      rw [show (h.alloc (h.get r)).2 = h.cells.length from rfl]
      omega)]
    rw [hget]
    cases h.get r <;> rfl

theorem tlkParseBlockH_spec (mapping : Mapping) (h : Heap) (r : Nat) :
    h.cells.length ≤ (tlkParseBlockH mapping h r).1.cells.length ∧
    (∀ r' < h.cells.length, (tlkParseBlockH mapping h r).1.get r' = h.get r') ∧
    (tlkParseBlockH mapping h r).2 = tlkParseBlock mapping (h.get r) := by
  have hblock : tlkParseBlock mapping (h.get r) = (do
      let isUnknown ← isUnknownMaterial (h.get r)
      parseMetadataBlock
        (if isUnknown then addEmptyValueAsMaterialText1 (h.get r) else h.get r) mapping) := rfl
  match hu : isUnknownMaterial (h.get r) with
  | .error e =>
    rw [show tlkParseBlockH mapping h r = (h, .error e) from by rw [tlkParseBlockH, hu]]
    refine ⟨Nat.le_refl _, fun r' _ => rfl, ?_⟩
    rw [hblock, hu]
    rfl
  | .ok true =>
    obtain ⟨hlen, hpres, hcontent⟩ := addEmptyH_spec h r
    rw [show tlkParseBlockH mapping h r =
        ((addEmptyValueAsMaterialText1H h r).1,
         parseMetadataBlock
           ((addEmptyValueAsMaterialText1H h r).1.get (addEmptyValueAsMaterialText1H h r).2)
           mapping) from by rw [tlkParseBlockH, hu]]
    dsimp only
    refine ⟨by omega, fun r' hr' => hpres r' hr', ?_⟩
    rw [hblock, hu, hcontent]
    rfl
  | .ok false =>
    rw [show tlkParseBlockH mapping h r = (h, parseMetadataBlock (h.get r) mapping) from by
      rw [tlkParseBlockH, hu]]
    refine ⟨Nat.le_refl _, fun r' _ => rfl, ?_⟩
    rw [hblock, hu]
    rfl


theorem tlkFoldH_spec (mapping : Mapping) :
    ∀ (refs : List Nat) (st : Heap × List PyRec × List String) (N : Nat),
      N ≤ st.1.cells.length → (∀ r ∈ refs, r < N) →
      N ≤ (refs.foldl
          (fun (acc : Heap × List PyRec × List String) r =>
            let br := tlkParseBlockH mapping acc.1 r
            match br.2 with
            | .ok row => (br.1, acc.2.1 ++ [row], acc.2.2)
            | .error e => (br.1, acc.2.1, acc.2.2 ++ [pyErrMsg e])) st).1.cells.length ∧
      (∀ r' < N, ((refs.foldl
          (fun (acc : Heap × List PyRec × List String) r =>
            let br := tlkParseBlockH mapping acc.1 r
            match br.2 with
            | .ok row => (br.1, acc.2.1 ++ [row], acc.2.2)
            | .error e => (br.1, acc.2.1, acc.2.2 ++ [pyErrMsg e])) st).1.get r' = st.1.get r')) ∧
      ((refs.foldl
          (fun (acc : Heap × List PyRec × List String) r =>
            let br := tlkParseBlockH mapping acc.1 r
            match br.2 with
            | .ok row => (br.1, acc.2.1 ++ [row], acc.2.2)
            | .error e => (br.1, acc.2.1, acc.2.2 ++ [pyErrMsg e])) st).2 =
        (refs.map st.1.get).foldl
          (fun (acc : List PyRec × List String) block =>
            match tlkParseBlock mapping block with
            | .ok row => (acc.1 ++ [row], acc.2)
            | .error e => (acc.1, acc.2 ++ [pyErrMsg e])) st.2) := by
  intro refs
  induction refs with
  | nil => intro st N hN _; exact ⟨hN, fun r' _ => rfl, rfl⟩
  | cons r rs ih =>
    intro st N hN hrefs
    obtain ⟨hlen, hpres, hres⟩ := tlkParseBlockH_spec mapping st.1 r
    set st1 := (fun (acc : Heap × List PyRec × List String) r =>
            let br := tlkParseBlockH mapping acc.1 r
            match br.2 with
            | .ok row => (br.1, acc.2.1 ++ [row], acc.2.2)
            | .error e => (br.1, acc.2.1, acc.2.2 ++ [pyErrMsg e])) st r with hst1
    have hst1h : st1.1 = (tlkParseBlockH mapping st.1 r).1 := by
      rw [hst1]
      dsimp only
      match (tlkParseBlockH mapping st.1 r).2 with
      | .ok row => rfl
      | .error e => rfl
    have hst1res : st1.2 =
        (fun (acc : List PyRec × List String) block =>
            match tlkParseBlock mapping block with
            | .ok row => (acc.1 ++ [row], acc.2)
            | .error e => (acc.1, acc.2 ++ [pyErrMsg e])) st.2 (st.1.get r) := by
      rw [hst1]
      dsimp only
      rw [← hres]
      match (tlkParseBlockH mapping st.1 r).2 with
      | .ok row => rfl
      | .error e => rfl
    have hN1 : N ≤ st1.1.cells.length := by rw [hst1h]; omega
    have hrefs1 : ∀ x ∈ rs, x < N := fun x hx => hrefs x (List.mem_cons_of_mem r hx)
    obtain ⟨flen, fpres, fres⟩ := ih st1 N hN1 hrefs1
    have hfold : (r :: rs).foldl
        (fun (acc : Heap × List PyRec × List String) r =>
            let br := tlkParseBlockH mapping acc.1 r
            match br.2 with
            | .ok row => (br.1, acc.2.1 ++ [row], acc.2.2)
            | .error e => (br.1, acc.2.1, acc.2.2 ++ [pyErrMsg e])) st =
        rs.foldl
        (fun (acc : Heap × List PyRec × List String) r =>
            let br := tlkParseBlockH mapping acc.1 r
            match br.2 with
            | .ok row => (br.1, acc.2.1 ++ [row], acc.2.2)
            | .error e => (br.1, acc.2.1, acc.2.2 ++ [pyErrMsg e])) st1 := by
      rw [List.foldl_cons, hst1]
    rw [hfold]
    refine ⟨flen, ?_, ?_⟩
    · intro r' hr'
      rw [fpres r' hr', hst1h, hpres r' (by omega)]
    · rw [fres]
      have hmapeq : rs.map st1.1.get = rs.map st.1.get := by
        apply List.map_congr_left
        intro x hx
        rw [hst1h]
        exact hpres x (by have := hrefs1 x hx; omega)
      rw [hmapeq, List.map_cons, List.foldl_cons, hst1res]


theorem parseTlkFileH_spec (mapping : Mapping) (h : Heap) (linesRef : Nat) :
    (∀ r' < h.cells.length, (parseTlkFileH mapping h linesRef).1.get r' = h.get r') ∧
    (parseTlkFileH mapping h linesRef).2 = parseTlkFile mapping (h.get linesRef) := by
  by_cases hemp : (h.get linesRef).isEmpty
  · rw [show parseTlkFileH mapping h linesRef =
        (h, pure ⟨"tlk", [], ["No lines found. Could not parse file"]⟩) from by
      rw [parseTlkFileH]
      simp [hemp]]
    refine ⟨fun r' _ => rfl, ?_⟩
    rw [parseTlkFile]
    simp [hemp]
  · have hemp' : (h.get linesRef).isEmpty = false := by
      simp only [Bool.not_eq_true] at hemp; exact hemp
    obtain ⟨alen, apres, amap, abound⟩ :=
      allocList_spec (splitTlkToBlocks (h.get linesRef)) h
    obtain ⟨flen, fpres, fres⟩ := tlkFoldH_spec mapping
      (allocList h (splitTlkToBlocks (h.get linesRef))).2
      ((allocList h (splitTlkToBlocks (h.get linesRef))).1, [], [])
      (allocList h (splitTlkToBlocks (h.get linesRef))).1.cells.length
      (Nat.le_refl _) abound
    have hunfold : parseTlkFileH mapping h linesRef =
        (((allocList h (splitTlkToBlocks (h.get linesRef))).2.foldl
          (fun (acc : Heap × List PyRec × List String) r =>
            let br := tlkParseBlockH mapping acc.1 r
            match br.2 with
            | .ok row => (br.1, acc.2.1 ++ [row], acc.2.2)
            | .error e => (br.1, acc.2.1, acc.2.2 ++ [pyErrMsg e]))
          ((allocList h (splitTlkToBlocks (h.get linesRef))).1, [], [])).1,
         pure ⟨"tlk",
          ((allocList h (splitTlkToBlocks (h.get linesRef))).2.foldl
            (fun (acc : Heap × List PyRec × List String) r =>
              let br := tlkParseBlockH mapping acc.1 r
              match br.2 with
              | .ok row => (br.1, acc.2.1 ++ [row], acc.2.2)
              | .error e => (br.1, acc.2.1, acc.2.2 ++ [pyErrMsg e]))
            ((allocList h (splitTlkToBlocks (h.get linesRef))).1, [], [])).2.1,
          ((allocList h (splitTlkToBlocks (h.get linesRef))).2.foldl
            (fun (acc : Heap × List PyRec × List String) r =>
              let br := tlkParseBlockH mapping acc.1 r
              match br.2 with
              | .ok row => (br.1, acc.2.1 ++ [row], acc.2.2)
              | .error e => (br.1, acc.2.1, acc.2.2 ++ [pyErrMsg e]))
            ((allocList h (splitTlkToBlocks (h.get linesRef))).1, [], [])).2.2⟩) := by
      rw [parseTlkFileH]
      simp only [hemp', Bool.false_eq_true, if_false]
    rw [hunfold]
    refine ⟨?_, ?_⟩
    · intro r' hr'
      dsimp only
      rw [fpres r' (by omega)]
      exact apres r' hr'
    · dsimp only
      rw [parseTlkFile]
      simp only [hemp', Bool.false_eq_true, if_false]
      rw [fres]
      rw [show ((allocList h (splitTlkToBlocks (h.get linesRef))).1, ([] : List PyRec),
          ([] : List String)).1 = (allocList h (splitTlkToBlocks (h.get linesRef))).1 from rfl]
      rw [amap]

/-- C10: none of the three entry points mutates the caller's list of lines
(nor any other pre-existing list cell): in the store model every
pre-existing cell reads the same after the call.  The only list-item
assignment in the source writes to the fresh cell allocated by
`block.copy()`; the companion fact `parseTlkFileH_spec` shows the
store-model parser also returns exactly `parseTlkFile`'s result. -/
theorem C10_no_mutation :
    (∀ (mapping : Mapping) (h : Heap) (linesRef r' : Nat), r' < h.cells.length →
       (parseTlkFileH mapping h linesRef).1.get r' = h.get r') ∧
    (∀ (M : SndMappings) (h : Heap) (linesRef r' : Nat), r' < h.cells.length →
       (parseSndFileH M h linesRef).1.get r' = h.get r') ∧
    (∀ (M : PrvMappings) (h : Heap) (linesRef r' : Nat), r' < h.cells.length →
       (parsePrvFileH M h linesRef).1.get r' = h.get r') := by
  refine ⟨?_, ?_, ?_⟩
  · intro mapping h linesRef r' hr'
    exact (parseTlkFileH_spec mapping h linesRef).1 r' hr'
  · intro M h linesRef r' hr'
    rw [show (parseSndFileH M h linesRef).1 =
        (allocList h (getBlocks (h.get linesRef))).1 from rfl]
    exact (allocList_spec (getBlocks (h.get linesRef)) h).2.1 r' hr'
  · intro M h linesRef r' hr'
    rw [show (parsePrvFileH M h linesRef).1 =
        (allocList h (getBlocks (h.get linesRef))).1 from rfl]
    exact (allocList_spec (getBlocks (h.get linesRef)) h).2.1 r' hr'

/-- C10, witness: a one-cell store holding an interpretation file's lines
(and the same cell fed to the other two parsers) is untouched. -/
theorem C10_witness :
    (0 : Nat) < (Heap.mk [["a", "*", "b"]]).cells.length ∧
    (parseTlkFileH [] (Heap.mk [["a", "*", "b"]]) 0).1.get 0 =
      (Heap.mk [["a", "*", "b"]]).get 0 ∧
    (parseSndFileH sndWitnessMappings (Heap.mk [["a", "*", "b"]]) 0).1.get 0 =
      (Heap.mk [["a", "*", "b"]]).get 0 ∧
    (parsePrvFileH (PrvMappings.mk [] []) (Heap.mk [["a", "*", "b"]]) 0).1.get 0 =
      (Heap.mk [["a", "*", "b"]]).get 0 :=
  ⟨by decide,
   C10_no_mutation.1 [] (Heap.mk [["a", "*", "b"]]) 0 0 (by decide),
   C10_no_mutation.2.1 sndWitnessMappings (Heap.mk [["a", "*", "b"]]) 0 0 (by decide),
   C10_no_mutation.2.2 (PrvMappings.mk [] []) (Heap.mk [["a", "*", "b"]]) 0 0 (by decide)⟩

end Geotolk
